import Mathlib

/-!
Verification development for the Data Alchemist validation engine.

The definitions below are a shallow embedding of the TypeScript sources
`src/lib/validation.ts` (the `ValidationEngine` class, found inside
`src/lib/aiService.ts`), `src/lib/crossFileValidation.ts`
(the `CrossFileValidationEngine` class) and the entity types of
`src/types/index.ts`.  JavaScript built-ins (`String.prototype.split`,
`Number`, `JSON.parse`, `Array.prototype.sort`, `Set`, insertion-ordered
`Map`) are modelled by executable Lean functions restricted to the value
forms these fields actually carry (integer numerics, escape-free strings,
arrays, booleans, null).
-/

namespace DataAlchemist

/-! ## Model of the JavaScript primitives -/

/-- Model of a JavaScript number restricted to the integer fragment used by
the data model; `nan` stands for JavaScript `NaN`.  Equality of `JsNum`
matches the SameValueZero comparison used by `Array.prototype.includes`
and `Set` membership (where `NaN` equals `NaN`). -/
inductive JsNum where
  | nan : JsNum
  | num : Int → JsNum
deriving DecidableEq, Repr

/-- Whitespace test for the JS string functions (ASCII fragment). -/
def isWsChar (c : Char) : Bool :=
  c = ' ' ∨ c = '\t' ∨ c = '\n' ∨ c = '\r'

/-- Model of `String.prototype.trim` on the character list. -/
def trimChars (cs : List Char) : List Char :=
  ((cs.dropWhile isWsChar).reverse.dropWhile isWsChar).reverse

/-- Model of `String.prototype.trim`. -/
def jsTrim (s : String) : String :=
  String.mk (trimChars s.data)

/-- Splitting a character list at every character satisfying `p`
(model of `String.prototype.split` with a single-character or
character-class separator: no collapsing, empty input gives `[""]`). -/
def splitChars (p : Char → Bool) : List Char → List (List Char)
  | [] => [[]]
  | c :: cs =>
    if p c then
      [] :: splitChars p cs
    else
      match splitChars p cs with
      | [] => [[c]]
      | l :: ls => (c :: l) :: ls

/-- Model of `s.split(sep)` for a one-character separator. -/
def jsSplitChar (sep : Char) (s : String) : List String :=
  (splitChars (fun c => c = sep) s.data).map String.mk

/-- Model of `s.split(/[,;]/)`. -/
def jsSplitCommaSemi (s : String) : List String :=
  (splitChars (fun c => c = ',' ∨ c = ';') s.data).map String.mk

/-- Model of `String.prototype.toLowerCase` (ASCII fragment). -/
def jsToLower (s : String) : String :=
  String.mk (s.data.map Char.toLower)

/-- Digit-list to natural number accumulator. -/
def digitsToNat (cs : List Char) : Nat :=
  cs.foldl (fun acc c => acc * 10 + (c.toNat - 48)) 0

/-- Model of the JS `Number(string)` conversion on the integer fragment:
surrounding whitespace is ignored, the empty string converts to `0`, an
optional sign followed by decimal digits converts to the signed value, and
everything else converts to `NaN`. -/
def jsNumber (s : String) : JsNum :=
  match trimChars s.data with
  | [] => JsNum.num 0
  | '-' :: rest =>
    if rest ≠ [] ∧ rest.all Char.isDigit then JsNum.num (-(digitsToNat rest : Int))
    else JsNum.nan
  | '+' :: rest =>
    if rest ≠ [] ∧ rest.all Char.isDigit then JsNum.num (digitsToNat rest : Int)
    else JsNum.nan
  | cs =>
    if cs.all Char.isDigit then JsNum.num (digitsToNat cs : Int)
    else JsNum.nan

/-- Model of a parsed JSON value, restricted to the forms these string
fields carry: null, booleans, integers, escape-free strings and arrays. -/
inductive Json where
  | null : Json
  | bool : Bool → Json
  | num : Int → Json
  | str : String → Json
  | arr : List Json → Json
deriving Repr

/-- Skip JSON whitespace. -/
def skipWs (cs : List Char) : List Char :=
  cs.dropWhile isWsChar

/-- Reads the body of a JSON string literal up to the closing quote
(escape sequences are outside the modelled fragment). -/
def readStrBody : List Char → Option (List Char × List Char)
  | [] => none
  | '"' :: rest => some ([], rest)
  | '\\' :: _ => none
  | c :: rest =>
    match readStrBody rest with
    | some (body, rest') => some (c :: body, rest')
    | none => none

/-- Reads a run of decimal digits. -/
def readDigits : List Char → List Char × List Char
  | [] => ([], [])
  | c :: rest =>
    if c.isDigit then
      match readDigits rest with
      | (ds, rest') => (c :: ds, rest')
    else ([], c :: rest)

/-- Lexical tokens of the modelled JSON fragment. -/
inductive JTok where
  | lb : JTok
  | rb : JTok
  | comma : JTok
  | lit : Json → JTok
deriving Repr

/-- Fuel-driven tokenizer for the modelled JSON fragment; `none` models a
`SyntaxError` thrown by `JSON.parse`.  The fuel is always instantiated
with more than the input length, so it is never exhausted. -/
def jsonTokensAux : Nat → List Char → Option (List JTok)
  | 0, _ => none
  | fuel + 1, cs =>
    match skipWs cs with
    | [] => some []
    | '[' :: rest => (jsonTokensAux fuel rest).map (JTok.lb :: ·)
    | ']' :: rest => (jsonTokensAux fuel rest).map (JTok.rb :: ·)
    | ',' :: rest => (jsonTokensAux fuel rest).map (JTok.comma :: ·)
    | '"' :: rest =>
      match readStrBody rest with
      | some (body, rest') =>
        (jsonTokensAux fuel rest').map (JTok.lit (Json.str (String.mk body)) :: ·)
      | none => none
    | 'n' :: 'u' :: 'l' :: 'l' :: rest =>
      (jsonTokensAux fuel rest).map (JTok.lit Json.null :: ·)
    | 't' :: 'r' :: 'u' :: 'e' :: rest =>
      (jsonTokensAux fuel rest).map (JTok.lit (Json.bool true) :: ·)
    | 'f' :: 'a' :: 'l' :: 's' :: 'e' :: rest =>
      (jsonTokensAux fuel rest).map (JTok.lit (Json.bool false) :: ·)
    | '-' :: rest =>
      match readDigits rest with
      | ([], _) => none
      | (ds, rest') =>
        (jsonTokensAux fuel rest').map (JTok.lit (Json.num (-(digitsToNat ds : Int))) :: ·)
    | c :: rest =>
      if c.isDigit then
        match readDigits (c :: rest) with
        | (ds, rest') =>
          (jsonTokensAux fuel rest').map (JTok.lit (Json.num (digitsToNat ds : Int)) :: ·)
      else none

/-- Fuel-driven shift/reduce loop turning a token stream into a JSON
value: `stack` holds the elements of the arrays currently open, `pending`
holds a just-completed value waiting for a separator.  `none` models a
thrown `SyntaxError`. -/
def parseToks : Nat → List JTok → List (List Json) → Option Json → Option Json
  | 0, _, _, _ => none
  | fuel + 1, toks, stack, pending =>
    match pending with
    | some v =>
      match stack with
      | [] =>
        match toks with
        | [] => some v
        | _ => none
      | frame :: stack' =>
        match toks with
        | JTok.comma :: rest => parseToks fuel rest ((frame ++ [v]) :: stack') none
        | JTok.rb :: rest => parseToks fuel rest stack' (some (Json.arr (frame ++ [v])))
        | _ => none
    | none =>
      match toks with
      | JTok.lit v :: rest => parseToks fuel rest stack (some v)
      | JTok.lb :: JTok.rb :: rest => parseToks fuel rest stack (some (Json.arr []))
      | JTok.lb :: rest => parseToks fuel rest ([] :: stack) none
      | _ => none

/-- Model of `JSON.parse` on the fragment described at `Json`;
`none` models a thrown `SyntaxError`. -/
def jsonParse (s : String) : Option Json :=
  match jsonTokensAux (s.length + 1) s.data with
  | none => none
  | some toks => parseToks (toks.length + 1) toks [] none

/-- Model of applying the JS `Number` conversion to a parsed JSON value
(as done by `parsed.map(Number)` in `parsePhases`/`parseSlots`): numbers
convert to themselves, strings through `jsNumber`, booleans to 0/1, null
to 0, the empty array to 0, a one-element array to the conversion of its
element, and other arrays to `NaN`. -/
def jsonToNumber : Json → JsNum
  | Json.num n => JsNum.num n
  | Json.str s => jsNumber s
  | Json.bool b => if b then JsNum.num 1 else JsNum.num 0
  | Json.null => JsNum.num 0
  | Json.arr [] => JsNum.num 0
  | Json.arr [v] => jsonToNumber v
  | Json.arr _ => JsNum.nan

/-- Model of JS truthiness for a parsed JSON value. -/
def jsTruthy : Json → Bool
  | Json.null => false
  | Json.bool b => b
  | Json.num n => n ≠ 0
  | Json.str s => s ≠ ""
  | Json.arr _ => true

/-- Model of `Array.prototype.join` with a separator. -/
def joinSep (sep : String) : List String → String
  | [] => ""
  | x :: xs => xs.foldl (fun acc y => acc ++ sep ++ y) x

/-- Rendering of a JsNum for message strings (`NaN` prints as in JS). -/
def jsNumToString : JsNum → String
  | JsNum.nan => "NaN"
  | JsNum.num n => toString n

/-- Rendering of a parsed JSON value for message strings (fragment). -/
def jsonToDisplay : Json → String
  | Json.null => "null"
  | Json.bool b => if b then "true" else "false"
  | Json.num n => toString n
  | Json.str s => s
  | Json.arr _ => ""

/-- First-occurrence de-duplication, the model of `[...new Set(xs)]`. -/
def jsDedupAux {α : Type} [DecidableEq α] : List α → List α → List α
  | _, [] => []
  | seen, x :: xs =>
    if x ∈ seen then jsDedupAux seen xs else x :: jsDedupAux (x :: seen) xs

/-- First-occurrence de-duplication, the model of `[...new Set(xs)]`. -/
def jsDedup {α : Type} [DecidableEq α] (l : List α) : List α :=
  jsDedupAux [] l

/-- Insertion step of the ascending sort used on the de-duplicated
affected-row lists (model of `.sort((a, b) => a - b)`). -/
def insertAsc (x : Int) : List Int → List Int
  | [] => [x]
  | y :: ys => if x ≤ y then x :: y :: ys else y :: insertAsc x ys

/-- Ascending numeric sort (model of `.sort((a, b) => a - b)`). -/
def sortAsc (l : List Int) : List Int :=
  l.foldr insertAsc []

/-! ## Entity model (`src/types/index.ts`) -/

/-- The `Client` row type. -/
structure Client where
  ClientID : String
  ClientName : String
  PriorityLevel : Int
  RequestedTaskIDs : String
  GroupTag : String
  AttributesJSON : String
deriving DecidableEq, Repr

/-- The `Worker` row type. -/
structure Worker where
  WorkerID : String
  WorkerName : String
  Skills : String
  AvailableSlots : String
  MaxLoadPerPhase : Int
  WorkerGroup : String
  QualificationLevel : Int
deriving DecidableEq, Repr

/-- The `Task` row type. -/
structure Task where
  TaskID : String
  TaskName : String
  Category : String
  Duration : Int
  RequiredSkills : String
  PreferredPhases : String
  MaxConcurrent : Int
deriving DecidableEq, Repr

/-- The `BusinessRule` record: `type` discriminates the rule kind; the
open property bag of the source is modelled by the optional `taskIds`
property, which is the only dynamic property the validators read
(`'taskIds' in rule && Array.isArray(rule.taskIds)`), plus the
`description` string interpolated into slot-restriction messages. -/
structure BusinessRule where
  id : String
  type : String
  name : String
  priority : Int
  description : String
  taskIds : Option (List String)
deriving DecidableEq, Repr

/-- A single validation finding (`ValidationError` in the source);
`affectedRows` are JS numbers, modelled as integers because the
duplicate-id check uses `-1` as a sentinel row value. -/
structure ValidationError where
  type : String
  message : String
  affectedRows : List Int
  affectedColumns : List String
  severity : String
  details : Option String
deriving DecidableEq, Repr

/-- One grouped finding (`GroupedValidationError` in the source). -/
structure GroupedValidationError where
  type : String
  message : String
  severity : String
  count : Nat
  affectedRows : List Int
  affectedColumns : List String
  examples : List String
deriving DecidableEq, Repr

/-- The report produced by `ValidationEngine.validateAll`. -/
structure ValidationResult where
  isValid : Bool
  errors : List ValidationError
  warnings : List ValidationError
  groupedErrors : List GroupedValidationError
  groupedWarnings : List GroupedValidationError
deriving DecidableEq, Repr

/-- The result record of `CrossFileValidationEngine.validateAll`. -/
structure CrossFileValidationResult where
  errors : List ValidationError
  warnings : List ValidationError
  businessRuleViolations : List ValidationError
deriving DecidableEq, Repr

/-! ## Structural validator: class `ValidationEngine` of `src/lib/validation.ts` -/

/-- Helper `findDuplicates` of `ValidationEngine`: `seen`/`dups` model the
two JS `Set`s, `dups` keeping insertion order. -/
def findDuplicatesAux {α : Type} [DecidableEq α] : List α → List α → List α → List α
  | _, dups, [] => dups
  | seen, dups, x :: xs =>
    if x ∈ seen then
      if x ∈ dups then findDuplicatesAux seen dups xs
      else findDuplicatesAux seen (dups ++ [x]) xs
    else findDuplicatesAux (x :: seen) dups xs

/-- Helper `findDuplicates` of `ValidationEngine`: the values occurring
more than once, in order of their first repetition. -/
def findDuplicates {α : Type} [DecidableEq α] (l : List α) : List α :=
  findDuplicatesAux [] [] l

/-- Helper `isValidArrayString`: `JSON.parse` succeeds and yields an array
whose items are all numbers. -/
def isValidArrayString (s : String) : Bool :=
  match jsonParse s with
  | some (Json.arr l) =>
    l.all (fun j => match j with | Json.num _ => true | _ => false)
  | _ => false

/-- Matcher for the regex `^\d+-\d+$` of `isValidRangeString`. -/
def matchesRangePattern (cs : List Char) : Bool :=
  match readDigits cs with
  | ([], _) => false
  | (_, rest) =>
    match rest with
    | '-' :: rest2 =>
      match readDigits rest2 with
      | ([], _) => false
      | (_, rest3) => rest3.isEmpty
    | _ => false

/-- Helper `isValidRangeString`: the trimmed string matches `^\d+-\d+$`. -/
def isValidRangeString (s : String) : Bool :=
  matchesRangePattern (trimChars s.data)

namespace ValidationEngine

/-- Required column list for clients (`requiredClientColumns`). -/
def requiredClientColumns : List String :=
  ["ClientID", "ClientName", "PriorityLevel", "RequestedTaskIDs", "GroupTag", "AttributesJSON"]

/-- Required column list for workers (`requiredWorkerColumns`). -/
def requiredWorkerColumns : List String :=
  ["WorkerID", "WorkerName", "Skills", "AvailableSlots", "MaxLoadPerPhase", "WorkerGroup", "QualificationLevel"]

/-- Required column list for tasks (`requiredTaskColumns`). -/
def requiredTaskColumns : List String :=
  ["TaskID", "TaskName", "Category", "Duration", "RequiredSkills", "PreferredPhases", "MaxConcurrent"]

/-- The key set of a typed `Client` record (`Object.keys(this.clients[0])`
in a model where every row carries the full typed field set). -/
def clientKeys : List String := requiredClientColumns

/-- The key set of a typed `Worker` record. -/
def workerKeys : List String := requiredWorkerColumns

/-- The key set of a typed `Task` record. -/
def taskKeys : List String := requiredTaskColumns

/-- Validation rule 1, `validateMissingRequiredColumns`. -/
def validateMissingRequiredColumns (clients : List Client) (workers : List Worker)
    (tasks : List Task) : List ValidationError :=
  (if clients.length > 0 then
    let missing := requiredClientColumns.filter (fun col => !(clientKeys.contains col))
    if missing.length > 0 then
      [{ type := "missing_columns",
         message := "Missing required client columns: " ++ joinSep ", " missing,
         affectedRows := [], affectedColumns := missing, severity := "error",
         details := none }]
    else []
  else []) ++
  (if workers.length > 0 then
    let missing := requiredWorkerColumns.filter (fun col => !(workerKeys.contains col))
    if missing.length > 0 then
      [{ type := "missing_columns",
         message := "Missing required worker columns: " ++ joinSep ", " missing,
         affectedRows := [], affectedColumns := missing, severity := "error",
         details := none }]
    else []
  else []) ++
  (if tasks.length > 0 then
    let missing := requiredTaskColumns.filter (fun col => !(taskKeys.contains col))
    if missing.length > 0 then
      [{ type := "missing_columns",
         message := "Missing required task columns: " ++ joinSep ", " missing,
         affectedRows := [], affectedColumns := missing, severity := "error",
         details := none }]
    else []
  else [])

/-- The client section of `validateDuplicateIDs`. -/
def clientDupPart (clients : List Client) : List ValidationError :=
  let duplicateClientIDs := findDuplicates (clients.map (·.ClientID))
  if duplicateClientIDs.length > 0 then
    let affectedRows := (clients.enum.map (fun p =>
      if duplicateClientIDs.contains p.2.ClientID then (p.1 : Int) else -1)).filter
        (fun i => i != -1)
    [{ type := "duplicate_ids",
       message := "Duplicate Client IDs found: " ++ joinSep ", " duplicateClientIDs,
       affectedRows := affectedRows, affectedColumns := ["ClientID"], severity := "error",
       details := some ("Found " ++ toString duplicateClientIDs.length ++
         " duplicate Client IDs. Each client must have a unique identifier.") }]
  else []

/-- The worker section of `validateDuplicateIDs`. -/
def workerDupPart (workers : List Worker) : List ValidationError :=
  let duplicateWorkerIDs := findDuplicates (workers.map (·.WorkerID))
  if duplicateWorkerIDs.length > 0 then
    let affectedRows := (workers.enum.map (fun p =>
      if duplicateWorkerIDs.contains p.2.WorkerID then (p.1 : Int) else -1)).filter
        (fun i => i != -1)
    [{ type := "duplicate_ids",
       message := "Duplicate Worker IDs found: " ++ joinSep ", " duplicateWorkerIDs,
       affectedRows := affectedRows, affectedColumns := ["WorkerID"], severity := "error",
       details := none }]
  else []

/-- The task section of `validateDuplicateIDs`. -/
def taskDupPart (tasks : List Task) : List ValidationError :=
  let duplicateTaskIDs := findDuplicates (tasks.map (·.TaskID))
  if duplicateTaskIDs.length > 0 then
    let affectedRows := (tasks.enum.map (fun p =>
      if duplicateTaskIDs.contains p.2.TaskID then (p.1 : Int) else -1)).filter
        (fun i => i != -1)
    [{ type := "duplicate_ids",
       message := "Duplicate Task IDs found: " ++ joinSep ", " duplicateTaskIDs,
       affectedRows := affectedRows, affectedColumns := ["TaskID"], severity := "error",
       details := none }]
  else []

/-- Validation rule 2, `validateDuplicateIDs`. -/
def validateDuplicateIDs (clients : List Client) (workers : List Worker)
    (tasks : List Task) : List ValidationError :=
  clientDupPart clients ++ workerDupPart workers ++ taskDupPart tasks

/-- Validation rule 3, `validateMalformedLists`. -/
def validateMalformedLists (workers : List Worker) (tasks : List Task) :
    List ValidationError :=
  (workers.enum.filterMap (fun p =>
    if !(isValidArrayString p.2.AvailableSlots) then
      some { type := "malformed_list",
             message := "Invalid AvailableSlots format for worker " ++ p.2.WorkerID ++
               ". Expected array format like \"[1,2,3]\"",
             affectedRows := [(p.1 : Int)], affectedColumns := ["AvailableSlots"],
             severity := "error", details := none }
    else none)) ++
  (tasks.enum.filterMap (fun p =>
    if !(isValidArrayString p.2.PreferredPhases) && !(isValidRangeString p.2.PreferredPhases) then
      some { type := "malformed_list",
             message := "Invalid PreferredPhases format for task " ++ p.2.TaskID ++
               ". Expected array \"[1,2,3]\" or range \"1-3\" format",
             affectedRows := [(p.1 : Int)], affectedColumns := ["PreferredPhases"],
             severity := "error", details := none }
    else none))

/-- Validation rule 4, `validateOutOfRange`. -/
def validateOutOfRange (clients : List Client) (tasks : List Task) :
    List ValidationError :=
  (clients.enum.filterMap (fun p =>
    if p.2.PriorityLevel < 1 ∨ p.2.PriorityLevel > 5 then
      some { type := "out_of_range",
             message := "PriorityLevel must be between 1-5 for client " ++ p.2.ClientID,
             affectedRows := [(p.1 : Int)], affectedColumns := ["PriorityLevel"],
             severity := "error", details := none }
    else none)) ++
  (tasks.enum.filterMap (fun p =>
    if p.2.Duration < 1 then
      some { type := "out_of_range",
             message := "Duration must be >= 1 for task " ++ p.2.TaskID,
             affectedRows := [(p.1 : Int)], affectedColumns := ["Duration"],
             severity := "error", details := none }
    else none))

/-- Validation rule 5, `validateBrokenJSON`. -/
def validateBrokenJSON (clients : List Client) : List ValidationError :=
  clients.enum.filterMap (fun p =>
    match jsonParse p.2.AttributesJSON with
    | some _ => none
    | none =>
      some { type := "broken_json",
             message := "Invalid JSON in AttributesJSON for client " ++ p.2.ClientID,
             affectedRows := [(p.1 : Int)], affectedColumns := ["AttributesJSON"],
             severity := "error", details := none })

/-- Validation rule 6, `validateUnknownReferences` (structural engine
variant: comma-split only). -/
def validateUnknownReferences (clients : List Client) (tasks : List Task) :
    List ValidationError :=
  let taskIDs := tasks.map (·.TaskID)
  clients.enum.filterMap (fun p =>
    let requestedTasks := (jsSplitChar ',' p.2.RequestedTaskIDs).map jsTrim
    let unknownTasks := requestedTasks.filter (fun tid => tid != "" && !(taskIDs.contains tid))
    if unknownTasks.length > 0 then
      some { type := "unknown_reference",
             message := "Client " ++ p.2.ClientID ++ " references unknown tasks: " ++
               joinSep ", " unknownTasks,
             affectedRows := [(p.1 : Int)], affectedColumns := ["RequestedTaskIDs"],
             severity := "error", details := none }
    else none)

/-- Validation rule 9, `validateOverloadedWorkers` (structural engine
variant: compares the slot-array length with `MaxLoadPerPhase`). -/
def validateOverloadedWorkers (workers : List Worker) : List ValidationError :=
  workers.enum.filterMap (fun p =>
    match jsonParse p.2.AvailableSlots with
    | some (Json.arr availableSlots) =>
      if (availableSlots.length : Int) < p.2.MaxLoadPerPhase then
        some { type := "overloaded_worker",
               message := "Worker " ++ p.2.WorkerID ++ " has MaxLoadPerPhase (" ++
                 toString p.2.MaxLoadPerPhase ++ ") greater than available slots (" ++
                 toString availableSlots.length ++ ")",
               affectedRows := [(p.1 : Int)],
               affectedColumns := ["MaxLoadPerPhase", "AvailableSlots"],
               severity := "warning", details := none }
      else none
    | _ => none)

/-- Validation rule 11, `validateSkillCoverage` (exact skill matching,
comma split, no lowercasing). -/
def validateSkillCoverage (workers : List Worker) (tasks : List Task) :
    List ValidationError :=
  let workerSkills :=
    jsDedup ((workers.map (fun w => (jsSplitChar ',' w.Skills).map jsTrim)).flatten)
  tasks.enum.filterMap (fun p =>
    let requiredSkills := (jsSplitChar ',' p.2.RequiredSkills).map jsTrim
    let uncoveredSkills :=
      requiredSkills.filter (fun sk => sk != "" && !(workerSkills.contains sk))
    if uncoveredSkills.length > 0 then
      some { type := "skill_coverage",
             message := "Task " ++ p.2.TaskID ++ " requires skills not available in any worker: " ++
               joinSep ", " uncoveredSkills,
             affectedRows := [(p.1 : Int)], affectedColumns := ["RequiredSkills"],
             severity := "warning", details := none }
    else none)

/-- Validation rule 12, `validateMaxConcurrencyFeasibility`. -/
def validateMaxConcurrencyFeasibility (workers : List Worker) (tasks : List Task) :
    List ValidationError :=
  tasks.enum.filterMap (fun p =>
    let requiredSkills := (jsSplitChar ',' p.2.RequiredSkills).map jsTrim
    let qualifiedWorkers := workers.filter (fun w =>
      requiredSkills.all (fun sk => ((jsSplitChar ',' w.Skills).map jsTrim).contains sk))
    if p.2.MaxConcurrent > (qualifiedWorkers.length : Int) then
      some { type := "max_concurrency_feasibility",
             message := "Task " ++ p.2.TaskID ++ " MaxConcurrent (" ++
               toString p.2.MaxConcurrent ++ ") exceeds qualified workers (" ++
               toString qualifiedWorkers.length ++ ")",
             affectedRows := [(p.1 : Int)], affectedColumns := ["MaxConcurrent"],
             severity := "warning", details := none }
    else none)

/-- Creation of a fresh group from a finding (the `else` branch of
`groupValidationErrors`). -/
def newGroup (e : ValidationError) : GroupedValidationError :=
  { type := e.type, message := e.message, severity := e.severity, count := 1,
    affectedRows := e.affectedRows, affectedColumns := e.affectedColumns,
    examples := match e.details with | some d => [d] | none => [] }

/-- In-place update of an existing group (the `then` branch of
`groupValidationErrors`; examples are capped at 3). -/
def updateGroup (g : GroupedValidationError) (e : ValidationError) :
    GroupedValidationError :=
  { g with
    count := g.count + 1,
    affectedRows := g.affectedRows ++ e.affectedRows,
    affectedColumns := g.affectedColumns ++ e.affectedColumns,
    examples :=
      match e.details with
      | some d => if g.examples.length < 3 then g.examples ++ [d] else g.examples
      | none => g.examples }

/-- One step of the grouping fold: the insertion-ordered JS `Map` is
modelled by an association list keyed on the finding kind. -/
def insertGrouped : List GroupedValidationError → ValidationError →
    List GroupedValidationError
  | [], e => [newGroup e]
  | g :: gs, e =>
    if g.type = e.type then updateGroup g e :: gs else g :: insertGrouped gs e

/-- The grouping fold over all findings (`groupMap` built by `forEach`). -/
def buildGroupMap (es : List ValidationError) : List GroupedValidationError :=
  es.foldl insertGrouped []

/-- The post-pass of `groupValidationErrors`: de-duplicate and
numerically sort the affected rows, de-duplicate the affected columns. -/
def finalizeGroup (g : GroupedValidationError) : GroupedValidationError :=
  { g with
    affectedRows := sortAsc (jsDedup g.affectedRows),
    affectedColumns := jsDedup g.affectedColumns }

/-- Insertion step of the descending count sort; placing an element
before the first strictly smaller or equal-count entry reproduces the
stable `Array.prototype.sort((a, b) => b.count - a.count)`. -/
def insertByCountDesc (g : GroupedValidationError) :
    List GroupedValidationError → List GroupedValidationError
  | [] => [g]
  | h :: t => if h.count ≤ g.count then g :: h :: t else h :: insertByCountDesc g t

/-- The stable descending sort by occurrence count. -/
def sortByCountDesc (l : List GroupedValidationError) :
    List GroupedValidationError :=
  l.foldr insertByCountDesc []

/-- `groupValidationErrors`: group findings by kind, finalize the groups,
sort descending by count (stable). -/
def groupValidationErrors (validationErrors : List ValidationError) :
    List GroupedValidationError :=
  sortByCountDesc ((buildGroupMap validationErrors).map finalizeGroup)

/-- `ValidationEngine.validateAll`. -/
def validateAll (clients : List Client) (workers : List Worker) (tasks : List Task) :
    ValidationResult :=
  let errors :=
    validateMissingRequiredColumns clients workers tasks ++
    validateDuplicateIDs clients workers tasks ++
    validateMalformedLists workers tasks ++
    validateOutOfRange clients tasks ++
    validateBrokenJSON clients ++
    validateUnknownReferences clients tasks
  let warnings :=
    validateOverloadedWorkers workers ++
    validateSkillCoverage workers tasks ++
    validateMaxConcurrencyFeasibility workers tasks
  { isValid := errors.length == 0,
    errors := errors,
    warnings := warnings,
    groupedErrors := groupValidationErrors errors,
    groupedWarnings := groupValidationErrors warnings }

end ValidationEngine

/-! ## Cross-file validator: class `CrossFileValidationEngine` of
`src/lib/crossFileValidation.ts` -/

/-- `startsWithChars big small`: `small` is a leading run of `big`. -/
def startsWithChars : List Char → List Char → Bool
  | _, [] => true
  | [], _ :: _ => false
  | c :: cs, d :: ds => c = d && startsWithChars cs ds

/-- Substring occurrence on character lists. -/
def containsChars : List Char → List Char → Bool
  | [], small => small.isEmpty
  | c :: rest, small => startsWithChars (c :: rest) small || containsChars rest small

/-- Model of `String.prototype.includes`. -/
def strIncludes (s sub : String) : Bool :=
  containsChars s.data sub.data

/-- The inclusive integer range `[a, b]` produced by the
`for (let i = start; i <= end; i++)` loop (empty when `b < a`). -/
def intRange (a b : Int) : List Int :=
  (List.range (b + 1 - a).toNat).map (fun k => a + k)

namespace CrossFileValidationEngine

/-- Helper `parsePhases`: bracketed JSON arrays are mapped element-wise
through `Number` (keeping `NaN` entries), `"a-b"` expands to the inclusive
range, and comma-separated lists are converted with `NaN` entries
filtered out; a `JSON.parse` failure is caught and yields `[]`. -/
def parsePhases (phasesStr : String) : List JsNum :=
  if phasesStr = "" then []
  else if phasesStr.data.contains '[' then
    match jsonParse phasesStr with
    | some (Json.arr parsed) => parsed.map jsonToNumber
    | some v => [jsonToNumber v]
    | none => []
  else if phasesStr.data.contains '-' then
    match (jsSplitChar '-' phasesStr).map jsNumber with
    | JsNum.num start :: JsNum.num stop :: _ => (intRange start stop).map JsNum.num
    | _ => []
  else
    ((jsSplitChar ',' phasesStr).map (fun s => jsNumber (jsTrim s))).filter
      (fun n => n != JsNum.nan)

/-- Helper `parseSlots`: like `parsePhases` but without the range form. -/
def parseSlots (slotsStr : String) : List JsNum :=
  if slotsStr = "" then []
  else if slotsStr.data.contains '[' then
    match jsonParse slotsStr with
    | some (Json.arr parsed) => parsed.map jsonToNumber
    | some v => [jsonToNumber v]
    | none => []
  else
    ((jsSplitChar ',' slotsStr).map (fun s => jsNumber (jsTrim s))).filter
      (fun n => n != JsNum.nan)

/-- Helper `hasMultipleDataSources`: at least 2 of the three datasets are
non-empty. -/
def hasMultipleDataSources (clients : List Client) (workers : List Worker)
    (tasks : List Task) : Bool :=
  let sources := [decide (clients.length > 0), decide (workers.length > 0),
    decide (tasks.length > 0)]
  decide (2 ≤ (sources.filter (fun b => b)).length)

/-- The parsed `RequestedTaskIDs` of a client: bracket-led strings go
through `JSON.parse` (falling back to comma-splitting when it throws),
anything else is comma-split and trimmed. -/
def requestedTasksOf (c : Client) : List Json :=
  if c.RequestedTaskIDs.data.head? = some '[' then
    match jsonParse c.RequestedTaskIDs with
    | some (Json.arr l) => l
    | some v => [v]
    | none => (jsSplitChar ',' c.RequestedTaskIDs).map (fun s => Json.str (jsTrim s))
  else
    (jsSplitChar ',' c.RequestedTaskIDs).map (fun s => Json.str (jsTrim s))

/-- Membership of a parsed requested-task entry in the task-id set
(`taskIds.has(taskId)`: only a string entry can match). -/
def jsonStrMem (j : Json) (ids : List String) : Bool :=
  match j with
  | Json.str s => ids.contains s
  | _ => false

/-- The truthy requested entries of a client that resolve to no task. -/
def unknownTasksOf (c : Client) (taskIds : List String) : List Json :=
  (requestedTasksOf c).filter (fun j => jsTruthy j && !(jsonStrMem j taskIds))

/-- The finding pushed for a client with unresolved references. -/
def unknownFinding (i : Nat) (c : Client) (taskIds : List String) : ValidationError :=
  let unknownTasks := unknownTasksOf c taskIds
  { type := "unknown_reference",
    message := "Client " ++ c.ClientID ++ " (" ++ c.ClientName ++
      ") references unknown task(s): " ++
      joinSep ", " (unknownTasks.map jsonToDisplay),
    affectedRows := [(i : Int)], affectedColumns := ["RequestedTaskIDs"],
    severity := "error",
    details := some ("Unknown tasks: " ++
      joinSep ", " (unknownTasks.map jsonToDisplay) ++
      ". Available tasks: " ++ joinSep ", " (jsDedup taskIds)) }

/-- Check 1, `validateUnknownReferences` (cross-file variant). -/
def validateUnknownReferences (clients : List Client) (tasks : List Task) :
    List ValidationError :=
  if clients.length = 0 ∨ tasks.length = 0 then []
  else
    let taskIds := tasks.map (·.TaskID)
    clients.enum.filterMap (fun p =>
      if p.2.RequestedTaskIDs = "" then none
      else
        if (unknownTasksOf p.2 taskIds).length > 0 then
          some (unknownFinding p.1 p.2 taskIds)
        else none)

/-- The lowercased, `[,;]`-split, trimmed skill tokens of a worker
(empty for a falsy `Skills` string). -/
def workerSkillsOf (w : Worker) : List String :=
  if w.Skills = "" then [] else (jsSplitCommaSemi (jsToLower w.Skills)).map jsTrim

/-- Check 2, `validateSkillCoverageGaps`. -/
def validateSkillCoverageGaps (workers : List Worker) (tasks : List Task) :
    List ValidationError :=
  if tasks.length = 0 ∨ workers.length = 0 then []
  else
    let workerSkills := jsDedup ((workers.map workerSkillsOf).flatten)
    tasks.enum.filterMap (fun p =>
      if p.2.RequiredSkills = "" then none
      else
        let requiredSkills := (jsSplitCommaSemi (jsToLower p.2.RequiredSkills)).map jsTrim
        let uncoveredSkills :=
          requiredSkills.filter (fun sk => sk != "" && !(workerSkills.contains sk))
        if uncoveredSkills.length > 0 then
          some { type := "skill_coverage_gap",
                 message := "Task " ++ p.2.TaskID ++ " (" ++ p.2.TaskName ++
                   ") requires skill(s) not covered by any worker: " ++
                   joinSep ", " uncoveredSkills,
                 affectedRows := [(p.1 : Int)], affectedColumns := ["RequiredSkills"],
                 severity := "warning",
                 details := some ("Uncovered skills: " ++ joinSep ", " uncoveredSkills ++
                   ". Available skills: " ++ joinSep ", " workerSkills) }
        else none)

/-- The fuzzy substring-or-equality skill match used by the feasibility
checks: some worker token contains, or is contained in, the skill. -/
def fuzzySkillMatch (workerSkills : List String) (skill : String) : Bool :=
  workerSkills.any (fun ws => strIncludes ws skill || strIncludes skill ws)

/-- Check 3, `validateMaxConcurrencyViolations`. -/
def validateMaxConcurrencyViolations (workers : List Worker) (tasks : List Task) :
    List ValidationError :=
  if tasks.length = 0 ∨ workers.length = 0 then []
  else
    tasks.enum.filterMap (fun p =>
      if p.2.MaxConcurrent = 0 ∨ p.2.RequiredSkills = "" ∨ p.2.PreferredPhases = "" then none
      else
        let requiredSkills := (jsSplitCommaSemi (jsToLower p.2.RequiredSkills)).map jsTrim
        let preferredPhases := parsePhases p.2.PreferredPhases
        let qualifiedWorkers := workers.filter (fun w =>
          requiredSkills.all (fuzzySkillMatch (workerSkillsOf w)) &&
          preferredPhases.any (fun phase => (parseSlots w.AvailableSlots).contains phase))
        if (qualifiedWorkers.length : Int) < p.2.MaxConcurrent then
          some { type := "max_concurrency_violation",
                 message := "Task " ++ p.2.TaskID ++ " requests MaxConcurrent = " ++
                   toString p.2.MaxConcurrent ++ ", but only " ++
                   toString qualifiedWorkers.length ++
                   " qualified workers available in phases " ++
                   joinSep "," (preferredPhases.map jsNumToString),
                 affectedRows := [(p.1 : Int)],
                 affectedColumns := ["MaxConcurrent", "RequiredSkills", "PreferredPhases"],
                 severity := "warning",
                 details := some ("Qualified workers: " ++
                   joinSep ", " (qualifiedWorkers.map (·.WorkerID))) }
        else none)

/-- Check 4, `validateOverloadedWorkers` (cross-file variant: per
available phase, counts the tasks the worker is eligible for). -/
def validateOverloadedWorkers (workers : List Worker) (tasks : List Task) :
    List ValidationError :=
  if workers.length = 0 ∨ tasks.length = 0 then []
  else
    (workers.enum.map (fun p =>
      if p.2.MaxLoadPerPhase = 0 ∨ p.2.AvailableSlots = "" then []
      else
        let workerSkills := workerSkillsOf p.2
        (parseSlots p.2.AvailableSlots).filterMap (fun phase =>
          let eligibleTasks := tasks.filter (fun t =>
            let requiredSkills :=
              if t.RequiredSkills = "" then []
              else (jsSplitCommaSemi (jsToLower t.RequiredSkills)).map jsTrim
            (requiredSkills.isEmpty || requiredSkills.all (fuzzySkillMatch workerSkills)) &&
            (parsePhases t.PreferredPhases).contains phase)
          if (eligibleTasks.length : Int) > p.2.MaxLoadPerPhase then
            some { type := "overloaded_worker",
                   message := "Worker " ++ p.2.WorkerID ++ " has MaxLoadPerPhase: " ++
                     toString p.2.MaxLoadPerPhase ++ ", but is eligible for " ++
                     toString eligibleTasks.length ++ " tasks in phase " ++
                     jsNumToString phase,
                   affectedRows := [(p.1 : Int)],
                   affectedColumns := ["MaxLoadPerPhase", "AvailableSlots"],
                   severity := "warning",
                   details := some ("Eligible tasks in phase " ++ jsNumToString phase ++
                     ": " ++ joinSep ", " (eligibleTasks.map (·.TaskID))) }
          else none))).flatten

/-- Counter update in an insertion-ordered `Map<number, number>`
(`map.set(k, (map.get(k) || 0) + d)`). -/
def bumpAssoc (m : List (JsNum × Int)) (k : JsNum) (d : Int) : List (JsNum × Int) :=
  if m.any (fun p => p.1 == k) then
    m.map (fun p => if p.1 == k then (p.1, p.2 + d) else p)
  else m ++ [(k, d)]

/-- Lookup in the phase-counter map with default 0. -/
def lookupAssoc (m : List (JsNum × Int)) (k : JsNum) : Int :=
  (((m.find? (fun p => p.1 == k)).map (·.2))).getD 0

/-- Check 5, `validatePhaseSlotSaturation`. -/
def validatePhaseSlotSaturation (workers : List Worker) (tasks : List Task) :
    List ValidationError :=
  if tasks.length = 0 ∨ workers.length = 0 then []
  else
    let phaseCapacity := workers.foldl (fun m w =>
      (parseSlots w.AvailableSlots).foldl (fun m phase => bumpAssoc m phase 1) m) []
    let phaseRequirement := tasks.foldl (fun m t =>
      let duration := if t.Duration = 0 then 1 else t.Duration
      (parsePhases t.PreferredPhases).foldl (fun m phase => bumpAssoc m phase duration) m) []
    phaseRequirement.filterMap (fun p =>
      let required := p.2
      let available := lookupAssoc phaseCapacity p.1
      if required > available then
        some { type := "phase_slot_saturation",
               message := "Phase " ++ jsNumToString p.1 ++ " has " ++ toString required ++
                 " task-duration units required, but only " ++ toString available ++
                 " available worker slots",
               affectedRows := [],
               affectedColumns := ["PreferredPhases", "Duration", "AvailableSlots"],
               severity := "warning",
               details := some ("Phase " ++ jsNumToString p.1 ++ ": Required=" ++
                 toString required ++ ", Available=" ++ toString available ++
                 ", Deficit=" ++ toString (required - available)) }
      else none)

/-- Ensure a node exists in the adjacency map (insertion-ordered). -/
def graphEnsure (g : List (String × List String)) (k : String) :
    List (String × List String) :=
  if g.any (fun p => p.1 == k) then g else g ++ [(k, [])]

/-- Add the directed edge `a → b` to the adjacency map (the neighbor set
is insertion-ordered and duplicate-free, like a JS `Set`). -/
def graphAddEdge (g : List (String × List String)) (a b : String) :
    List (String × List String) :=
  g.map (fun p =>
    if p.1 == a then (p.1, if p.2.contains b then p.2 else p.2 ++ [b]) else p)

/-- Neighbor lookup (`graph.get(node) || new Set()`). -/
def graphNeighbors (g : List (String × List String)) (k : String) : List String :=
  (((g.find? (fun p => p.1 == k)).map (·.2))).getD []

/-- The per-rule graph contribution: every ordered pair of distinct task
ids in the same CoRun rule becomes an edge. -/
def addRuleEdges (g : List (String × List String)) (taskIds : List String) :
    List (String × List String) :=
  taskIds.foldl (fun g taskId =>
    let g := graphEnsure g taskId
    taskIds.foldl (fun g otherTaskId =>
      if taskId == otherTaskId then g else graphAddEdge g taskId otherTaskId) g) g

/-- The dependency graph built from all CoRun rules carrying a `taskIds`
array. -/
def buildCoRunGraph (coRunRules : List BusinessRule) :
    List (String × List String) :=
  coRunRules.foldl (fun g r =>
    match r.taskIds with
    | some taskIds => addRuleEdges g taskIds
    | none => g) []

/-- The recursive `hasCycle` DFS with its mutable `visited` set threaded
through and the recursion stack passed down; the fuel bounds the
recursion depth and is instantiated above the graph size, which the
visited-set guard never lets the depth exceed. -/
def hasCycleAux (g : List (String × List String)) :
    Nat → List String → List String → String → Bool × List String
  | 0, _, visited, _ => (false, visited)
  | fuel + 1, stack, visited, node =>
    if stack.contains node then (true, visited)
    else if visited.contains node then (false, visited)
    else
      (graphNeighbors g node).foldl
        (fun acc neighbor =>
          if acc.1 then acc else hasCycleAux g fuel (node :: stack) acc.2 neighbor)
        (false, node :: visited)

/-- The top-level DFS loop over the graph keys: returns the first node
from which a cycle is found (the loop `break`s after it). -/
def detectCycleNode (g : List (String × List String)) : Option String :=
  (g.foldl (fun st p =>
    match st with
    | (visited, some n) => (visited, some n)
    | (visited, none) =>
      if visited.contains p.1 then (visited, none)
      else
        match hasCycleAux g (g.length + 1) [] visited p.1 with
        | (true, v) => (v, some p.1)
        | (false, v) => (v, none)) (([], none) : List String × Option String)).2

/-- Check 6, `validateCircularCoRunDependencies`. -/
def validateCircularCoRunDependencies (businessRules : List BusinessRule) :
    List ValidationError :=
  let coRunRules := businessRules.filter (fun r => r.type == "coRun")
  if coRunRules.length = 0 then []
  else
    match detectCycleNode (buildCoRunGraph coRunRules) with
    | some node =>
      [{ type := "circular_corun_dependency",
         message := "Circular co-run dependency detected involving task " ++ node,
         affectedRows := [], affectedColumns := [], severity := "error",
         details := some ("Circular dependency in co-run rules involving task " ++ node) }]
    | none => []

/-- The union of all workers' available phases (a JS `Set`, insertion
ordered). -/
def collectAvailablePhases (workers : List Worker) : List JsNum :=
  jsDedup ((workers.map (fun w => parseSlots w.AvailableSlots)).flatten)

/-- Check 7, `validateInvalidPhaseReferences`. -/
def validateInvalidPhaseReferences (workers : List Worker) (tasks : List Task) :
    List ValidationError :=
  if tasks.length = 0 ∨ workers.length = 0 then []
  else
    let availablePhases := collectAvailablePhases workers
    tasks.enum.filterMap (fun p =>
      if p.2.PreferredPhases = "" then none
      else
        let preferredPhases := parsePhases p.2.PreferredPhases
        let invalidPhases := preferredPhases.filter (fun phase =>
          !(availablePhases.contains phase))
        if invalidPhases.length > 0 then
          some { type := "invalid_phase_reference",
                 message := "Task " ++ p.2.TaskID ++ " prefers phases " ++
                   joinSep "," (invalidPhases.map jsNumToString) ++
                   ", but no worker is available in those phases",
                 affectedRows := [(p.1 : Int)], affectedColumns := ["PreferredPhases"],
                 severity := "error",
                 details := some ("Invalid phases: " ++
                   joinSep ", " (invalidPhases.map jsNumToString) ++
                   ". Available phases: " ++
                   joinSep ", " (availablePhases.map jsNumToString)) }
        else none)

/-- Check 8, `validateSlotRestrictionRules`: always emits the
not-yet-implemented warning for each slot-restriction rule. -/
def validateSlotRestrictionRules (businessRules : List BusinessRule) :
    List ValidationError :=
  let slotRestrictionRules := businessRules.filter (fun r => r.type == "slotRestriction")
  slotRestrictionRules.map (fun rule =>
    { type := "slot_restriction_violation",
      message := "Slot restriction rule \"" ++ rule.name ++
        "\" validation not yet implemented",
      affectedRows := [], affectedColumns := [], severity := "warning",
      details := some ("Rule: " ++ rule.description) })

/-- `CrossFileValidationEngine.validateAll`: all cross-file checks run
only when at least two datasets are populated. -/
def validateAll (clients : List Client) (workers : List Worker) (tasks : List Task)
    (businessRules : List BusinessRule) : CrossFileValidationResult :=
  if hasMultipleDataSources clients workers tasks then
    { errors :=
        validateUnknownReferences clients tasks ++
        validateInvalidPhaseReferences workers tasks,
      warnings :=
        validateSkillCoverageGaps workers tasks ++
        validateMaxConcurrencyViolations workers tasks ++
        validateOverloadedWorkers workers tasks ++
        validatePhaseSlotSaturation workers tasks,
      businessRuleViolations :=
        validateCircularCoRunDependencies businessRules ++
        validateSlotRestrictionRules businessRules }
  else
    { errors := [], warnings := [], businessRuleViolations := [] }

end CrossFileValidationEngine

/-! ## The finding-kind taxonomy of the specification -/

/-- The closed finding-kind taxonomy of the specification (§7). -/
def taxonomyKinds : List String :=
  ["missing_columns", "duplicate_ids", "malformed_list", "broken_json", "out_of_range",
   "unknown_reference", "invalid_phase_reference", "circular_corun_dependency",
   "skill_coverage_gap", "max_concurrency_violation", "overloaded_worker",
   "phase_slot_saturation", "slot_restriction_violation"]

/-! ## Specification-side descriptions of the aggregator and the
duplicate-id rows -/

/-- The finding kinds present in a finding list, in first-seen order. -/
def kindsOf (es : List ValidationError) : List String :=
  jsDedup (es.map (·.type))

/-- Direct description of the group built for kind `k`: the count, the
concatenated row/column lists and the first three example details of the
findings of that kind, with message and severity taken from the first
finding of the kind. -/
def rawAgg (es : List ValidationError) (k : String) : GroupedValidationError :=
  let ofKind := es.filter (fun e => e.type = k)
  { type := k,
    message := ((ofKind.head?).map (·.message)).getD "",
    severity := ((ofKind.head?).map (·.severity)).getD "",
    count := ofKind.length,
    affectedRows := (ofKind.map (·.affectedRows)).flatten,
    affectedColumns := (ofKind.map (·.affectedColumns)).flatten,
    examples := (ofKind.filterMap (·.details)).take 3 }

/-- Specification-side description of the finished group for kind `k`:
count = number of findings of the kind, affected rows = the de-duplicated
union sorted ascending, affected columns = the de-duplicated union in
first-seen order, message/severity from the first finding of the kind,
up to three example details. -/
def specGroup (es : List ValidationError) (k : String) : GroupedValidationError :=
  let ofKind := es.filter (fun e => e.type = k)
  { type := k,
    message := ((ofKind.head?).map (·.message)).getD "",
    severity := ((ofKind.head?).map (·.severity)).getD "",
    count := ofKind.length,
    affectedRows := sortAsc (jsDedup ((ofKind.map (·.affectedRows)).flatten)),
    affectedColumns := jsDedup ((ofKind.map (·.affectedColumns)).flatten),
    examples := (ofKind.filterMap (·.details)).take 3 }

/-- Specification-side description of the aggregator: one group per
finding kind (first-seen order), each as in `specGroup`, the groups
stably sorted by descending occurrence count. -/
def groupedSpec (es : List ValidationError) : List GroupedValidationError :=
  ValidationEngine.sortByCountDesc ((kindsOf es).map (specGroup es))

/-- Specification-side description of the duplicate-id affected rows of
one dataset: the indices of every row whose identifier occurs at least
twice. -/
def dupRows (ids : List String) : List Int :=
  (ids.enum.filter (fun p => 2 ≤ ids.count p.2)).map (fun p => (p.1 : Int))

/-! ## Concrete fixtures used by the witnesses and counterexamples -/

/-- A CoRun rule carrying the given task-id set. -/
def ruleCoRun (nm : String) (ts : List String) : BusinessRule :=
  { id := nm, type := "coRun", name := nm, priority := 1, description := "",
    taskIds := some ts }

/-- The three-rule cycle `{T1,T2}`, `{T2,T3}`, `{T3,T1}` of the spec's
cycle-detection property. -/
def ruleTriangle : List BusinessRule :=
  [ruleCoRun "r1" ["T1", "T2"], ruleCoRun "r2" ["T2", "T3"], ruleCoRun "r3" ["T3", "T1"]]

/-- The two disjoint pair rules `{T1,T2}`, `{T3,T4}` of the spec's
cycle-detection property. -/
def ruleDisjoint : List BusinessRule :=
  [ruleCoRun "r1" ["T1", "T2"], ruleCoRun "r2" ["T3", "T4"]]

/-- A well-formed client that requests the unknown task `T9`. -/
def clientC1 : Client :=
  { ClientID := "C1", ClientName := "Acme", PriorityLevel := 3,
    RequestedTaskIDs := "T9", GroupTag := "g", AttributesJSON := "[]" }

/-- A well-formed worker available in phase 1. -/
def workerW1 : Worker :=
  { WorkerID := "W1", WorkerName := "Wendy", Skills := "welding",
    AvailableSlots := "[1]", MaxLoadPerPhase := 1, WorkerGroup := "g",
    QualificationLevel := 1 }

/-- A worker whose `AvailableSlots` uses the range notation. -/
def workerRange : Worker :=
  { WorkerID := "W2", WorkerName := "Rita", Skills := "welding",
    AvailableSlots := "1-5", MaxLoadPerPhase := 1, WorkerGroup := "g",
    QualificationLevel := 1 }

/-- A feasible task preferring phase 1 with no skill requirement. -/
def taskT1 : Task :=
  { TaskID := "T1", TaskName := "Build", Category := "c", Duration := 1,
    RequiredSkills := "", PreferredPhases := "[1]", MaxConcurrent := 1 }

/-- The repair task for the unknown reference `T9`; it prefers phase 99,
which no worker offers. -/
def taskT9 : Task :=
  { TaskID := "T9", TaskName := "New", Category := "c", Duration := 1,
    RequiredSkills := "", PreferredPhases := "[99]", MaxConcurrent := 0 }

/-- A task requiring a skill that no worker covers. -/
def taskT0 : Task :=
  { TaskID := "T1", TaskName := "Build", Category := "c", Duration := 1,
    RequiredSkills := "welding", PreferredPhases := "[1]", MaxConcurrent := 1 }

/-- A minimal well-formed client with the given identifier. -/
def clientWithID (cid : String) : Client :=
  { ClientID := cid, ClientName := cid, PriorityLevel := 1,
    RequestedTaskIDs := "", GroupTag := "", AttributesJSON := "1" }

/-- A finding touching column `b` (aggregation fixture). -/
def errColB : ValidationError :=
  { type := "out_of_range", message := "m1", affectedRows := [1],
    affectedColumns := ["b"], severity := "error", details := none }

/-- A finding of the same kind touching column `a` (aggregation
fixture). -/
def errColA : ValidationError :=
  { type := "out_of_range", message := "m2", affectedRows := [0],
    affectedColumns := ["a"], severity := "error", details := none }

/-! ## Kind and severity of each validator's findings -/

/-- Extraction helper for findings produced by a `filterMap`. -/
theorem exists_of_mem_filterMap {α β : Type} {l : List α} {g : α → Option β} {b : β}
    (hb : b ∈ l.filterMap g) : ∃ p, g p = some b := by
  rcases List.mem_filterMap.mp hb with ⟨p, _, hp⟩
  exact ⟨p, hp⟩

theorem veMissingColumns_spec (clients : List Client) (workers : List Worker)
    (tasks : List Task) :
    ∀ f ∈ ValidationEngine.validateMissingRequiredColumns clients workers tasks,
      f.type = "missing_columns" ∧ f.severity = "error" := by
  intro f hf
  simp only [ValidationEngine.validateMissingRequiredColumns, List.mem_append] at hf
  rcases hf with (hf | hf) | hf <;>
  · split at hf
    · split at hf
      · simp only [List.mem_singleton] at hf
        subst hf
        exact ⟨rfl, rfl⟩
      · simp at hf
    · simp at hf

theorem veDuplicateIDs_spec (clients : List Client) (workers : List Worker)
    (tasks : List Task) :
    ∀ f ∈ ValidationEngine.validateDuplicateIDs clients workers tasks,
      f.type = "duplicate_ids" ∧ f.severity = "error" := by
  intro f hf
  simp only [ValidationEngine.validateDuplicateIDs, List.mem_append] at hf
  rcases hf with (hf | hf) | hf
  · simp only [ValidationEngine.clientDupPart] at hf
    split at hf
    · simp only [List.mem_singleton] at hf
      subst hf
      exact ⟨rfl, rfl⟩
    · simp at hf
  · simp only [ValidationEngine.workerDupPart] at hf
    split at hf
    · simp only [List.mem_singleton] at hf
      subst hf
      exact ⟨rfl, rfl⟩
    · simp at hf
  · simp only [ValidationEngine.taskDupPart] at hf
    split at hf
    · simp only [List.mem_singleton] at hf
      subst hf
      exact ⟨rfl, rfl⟩
    · simp at hf

theorem veMalformedLists_spec (workers : List Worker) (tasks : List Task) :
    ∀ f ∈ ValidationEngine.validateMalformedLists workers tasks,
      f.type = "malformed_list" ∧ f.severity = "error" := by
  intro f hf
  simp only [ValidationEngine.validateMalformedLists, List.mem_append] at hf
  rcases hf with hf | hf <;>
  · obtain ⟨p, hp⟩ := exists_of_mem_filterMap hf
    split at hp
    · cases hp
      exact ⟨rfl, rfl⟩
    · simp at hp

theorem veOutOfRange_spec (clients : List Client) (tasks : List Task) :
    ∀ f ∈ ValidationEngine.validateOutOfRange clients tasks,
      f.type = "out_of_range" ∧ f.severity = "error" := by
  intro f hf
  simp only [ValidationEngine.validateOutOfRange, List.mem_append] at hf
  rcases hf with hf | hf <;>
  · obtain ⟨p, hp⟩ := exists_of_mem_filterMap hf
    split at hp
    · cases hp
      exact ⟨rfl, rfl⟩
    · simp at hp

theorem veBrokenJSON_spec (clients : List Client) :
    ∀ f ∈ ValidationEngine.validateBrokenJSON clients,
      f.type = "broken_json" ∧ f.severity = "error" := by
  intro f hf
  obtain ⟨p, hp⟩ := exists_of_mem_filterMap hf
  split at hp
  · simp at hp
  · cases hp
    exact ⟨rfl, rfl⟩

theorem veUnknownReferences_spec (clients : List Client) (tasks : List Task) :
    ∀ f ∈ ValidationEngine.validateUnknownReferences clients tasks,
      f.type = "unknown_reference" ∧ f.severity = "error" := by
  intro f hf
  obtain ⟨p, hp⟩ := exists_of_mem_filterMap hf
  try dsimp only at hp
  split at hp
  · cases hp
    exact ⟨rfl, rfl⟩
  · simp at hp

theorem veOverloadedWorkers_spec (workers : List Worker) :
    ∀ f ∈ ValidationEngine.validateOverloadedWorkers workers,
      f.type = "overloaded_worker" ∧ f.severity = "warning" := by
  intro f hf
  obtain ⟨p, hp⟩ := exists_of_mem_filterMap hf
  split at hp
  · split at hp
    · cases hp
      exact ⟨rfl, rfl⟩
    · simp at hp
  · simp at hp

theorem veSkillCoverage_spec (workers : List Worker) (tasks : List Task) :
    ∀ f ∈ ValidationEngine.validateSkillCoverage workers tasks,
      f.type = "skill_coverage" ∧ f.severity = "warning" := by
  intro f hf
  obtain ⟨p, hp⟩ := exists_of_mem_filterMap hf
  try dsimp only at hp
  split at hp
  · cases hp
    exact ⟨rfl, rfl⟩
  · simp at hp

theorem veMaxConcurrency_spec (workers : List Worker) (tasks : List Task) :
    ∀ f ∈ ValidationEngine.validateMaxConcurrencyFeasibility workers tasks,
      f.type = "max_concurrency_feasibility" ∧ f.severity = "warning" := by
  intro f hf
  obtain ⟨p, hp⟩ := exists_of_mem_filterMap hf
  try dsimp only at hp
  split at hp
  · cases hp
    exact ⟨rfl, rfl⟩
  · simp at hp

theorem cfUnknownReferences_spec (clients : List Client) (tasks : List Task) :
    ∀ f ∈ CrossFileValidationEngine.validateUnknownReferences clients tasks,
      f.type = "unknown_reference" ∧ f.severity = "error" := by
  intro f hf
  simp only [CrossFileValidationEngine.validateUnknownReferences] at hf
  split at hf
  · simp at hf
  · obtain ⟨p, hp⟩ := exists_of_mem_filterMap hf
    try dsimp only at hp
    split at hp
    · simp at hp
    · split at hp
      · cases hp
        exact ⟨rfl, rfl⟩
      · simp at hp

theorem cfSkillCoverageGaps_spec (workers : List Worker) (tasks : List Task) :
    ∀ f ∈ CrossFileValidationEngine.validateSkillCoverageGaps workers tasks,
      f.type = "skill_coverage_gap" ∧ f.severity = "warning" := by
  intro f hf
  simp only [CrossFileValidationEngine.validateSkillCoverageGaps] at hf
  split at hf
  · simp at hf
  · obtain ⟨p, hp⟩ := exists_of_mem_filterMap hf
    try dsimp only at hp
    split at hp
    · simp at hp
    · split at hp
      · cases hp
        exact ⟨rfl, rfl⟩
      · simp at hp

theorem cfMaxConcurrency_spec (workers : List Worker) (tasks : List Task) :
    ∀ f ∈ CrossFileValidationEngine.validateMaxConcurrencyViolations workers tasks,
      f.type = "max_concurrency_violation" ∧ f.severity = "warning" := by
  intro f hf
  simp only [CrossFileValidationEngine.validateMaxConcurrencyViolations] at hf
  split at hf
  · simp at hf
  · obtain ⟨p, hp⟩ := exists_of_mem_filterMap hf
    try dsimp only at hp
    split at hp
    · simp at hp
    · split at hp
      · cases hp
        exact ⟨rfl, rfl⟩
      · simp at hp

theorem cfOverloadedWorkers_spec (workers : List Worker) (tasks : List Task) :
    ∀ f ∈ CrossFileValidationEngine.validateOverloadedWorkers workers tasks,
      f.type = "overloaded_worker" ∧ f.severity = "warning" := by
  intro f hf
  simp only [CrossFileValidationEngine.validateOverloadedWorkers] at hf
  split at hf
  · simp at hf
  · rcases List.mem_flatten.mp hf with ⟨inner, hinner, hfin⟩
    rcases List.mem_map.mp hinner with ⟨p, _, hp⟩
    subst hp
    split at hfin
    · simp at hfin
    · obtain ⟨ph, hph⟩ := exists_of_mem_filterMap hfin
      try dsimp only at hph
      split at hph
      · cases hph
        exact ⟨rfl, rfl⟩
      · simp at hph

theorem cfPhaseSlotSaturation_spec (workers : List Worker) (tasks : List Task) :
    ∀ f ∈ CrossFileValidationEngine.validatePhaseSlotSaturation workers tasks,
      f.type = "phase_slot_saturation" ∧ f.severity = "warning" := by
  intro f hf
  simp only [CrossFileValidationEngine.validatePhaseSlotSaturation] at hf
  split at hf
  · simp at hf
  · obtain ⟨p, hp⟩ := exists_of_mem_filterMap hf
    try dsimp only at hp
    split at hp
    · cases hp
      exact ⟨rfl, rfl⟩
    · simp at hp

theorem cfCircularCoRun_spec (businessRules : List BusinessRule) :
    ∀ f ∈ CrossFileValidationEngine.validateCircularCoRunDependencies businessRules,
      f.type = "circular_corun_dependency" ∧ f.severity = "error" := by
  intro f hf
  simp only [CrossFileValidationEngine.validateCircularCoRunDependencies] at hf
  split at hf
  · simp at hf
  · split at hf
    · simp only [List.mem_singleton] at hf
      subst hf
      exact ⟨rfl, rfl⟩
    · simp at hf

theorem cfSlotRestriction_spec (businessRules : List BusinessRule) :
    ∀ f ∈ CrossFileValidationEngine.validateSlotRestrictionRules businessRules,
      f.type = "slot_restriction_violation" ∧ f.severity = "warning" := by
  intro f hf
  simp only [CrossFileValidationEngine.validateSlotRestrictionRules] at hf
  rcases List.mem_map.mp hf with ⟨r, _, hr⟩
  subst hr
  exact ⟨rfl, rfl⟩

theorem cfInvalidPhase_spec (workers : List Worker) (tasks : List Task) :
    ∀ f ∈ CrossFileValidationEngine.validateInvalidPhaseReferences workers tasks,
      f.type = "invalid_phase_reference" ∧ f.severity = "error" := by
  intro f hf
  simp only [CrossFileValidationEngine.validateInvalidPhaseReferences] at hf
  split at hf
  · simp at hf
  · obtain ⟨p, hp⟩ := exists_of_mem_filterMap hf
    try dsimp only at hp
    split at hp
    · simp at hp
    · split at hp
      · cases hp
        exact ⟨rfl, rfl⟩
      · simp at hp

/-! ## Aggregated kind/severity facts for the two `validateAll` entry
points -/

theorem veValidateAll_errors_spec (clients : List Client) (workers : List Worker)
    (tasks : List Task) :
    ∀ f ∈ (ValidationEngine.validateAll clients workers tasks).errors,
      f.type ∈ ["missing_columns", "duplicate_ids", "malformed_list", "out_of_range",
        "broken_json", "unknown_reference"] ∧ f.severity = "error" := by
  intro f hf
  simp only [ValidationEngine.validateAll, List.mem_append] at hf
  rcases hf with ((((hf | hf) | hf) | hf) | hf) | hf
  · obtain ⟨h1, h2⟩ := veMissingColumns_spec clients workers tasks f hf
    exact ⟨by rw [h1]; simp, h2⟩
  · obtain ⟨h1, h2⟩ := veDuplicateIDs_spec clients workers tasks f hf
    exact ⟨by rw [h1]; simp, h2⟩
  · obtain ⟨h1, h2⟩ := veMalformedLists_spec workers tasks f hf
    exact ⟨by rw [h1]; simp, h2⟩
  · obtain ⟨h1, h2⟩ := veOutOfRange_spec clients tasks f hf
    exact ⟨by rw [h1]; simp, h2⟩
  · obtain ⟨h1, h2⟩ := veBrokenJSON_spec clients f hf
    exact ⟨by rw [h1]; simp, h2⟩
  · obtain ⟨h1, h2⟩ := veUnknownReferences_spec clients tasks f hf
    exact ⟨by rw [h1]; simp, h2⟩

theorem veValidateAll_warnings_spec (clients : List Client) (workers : List Worker)
    (tasks : List Task) :
    ∀ f ∈ (ValidationEngine.validateAll clients workers tasks).warnings,
      f.type ∈ ["overloaded_worker", "skill_coverage", "max_concurrency_feasibility"] ∧
        f.severity = "warning" := by
  intro f hf
  simp only [ValidationEngine.validateAll, List.mem_append] at hf
  rcases hf with (hf | hf) | hf
  · obtain ⟨h1, h2⟩ := veOverloadedWorkers_spec workers f hf
    exact ⟨by rw [h1]; simp, h2⟩
  · obtain ⟨h1, h2⟩ := veSkillCoverage_spec workers tasks f hf
    exact ⟨by rw [h1]; simp, h2⟩
  · obtain ⟨h1, h2⟩ := veMaxConcurrency_spec workers tasks f hf
    exact ⟨by rw [h1]; simp, h2⟩

theorem cfValidateAll_errors_spec (clients : List Client) (workers : List Worker)
    (tasks : List Task) (businessRules : List BusinessRule) :
    ∀ f ∈ (CrossFileValidationEngine.validateAll clients workers tasks businessRules).errors,
      f.type ∈ ["unknown_reference", "invalid_phase_reference"] ∧ f.severity = "error" := by
  intro f hf
  simp only [CrossFileValidationEngine.validateAll] at hf
  split at hf
  · simp only [List.mem_append] at hf
    rcases hf with hf | hf
    · obtain ⟨h1, h2⟩ := cfUnknownReferences_spec clients tasks f hf
      exact ⟨by rw [h1]; simp, h2⟩
    · obtain ⟨h1, h2⟩ := cfInvalidPhase_spec workers tasks f hf
      exact ⟨by rw [h1]; simp, h2⟩
  · simp at hf

theorem cfValidateAll_warnings_spec (clients : List Client) (workers : List Worker)
    (tasks : List Task) (businessRules : List BusinessRule) :
    ∀ f ∈ (CrossFileValidationEngine.validateAll clients workers tasks businessRules).warnings,
      f.type ∈ ["skill_coverage_gap", "max_concurrency_violation", "overloaded_worker",
        "phase_slot_saturation"] ∧ f.severity = "warning" := by
  intro f hf
  simp only [CrossFileValidationEngine.validateAll] at hf
  split at hf
  · simp only [List.mem_append] at hf
    rcases hf with ((hf | hf) | hf) | hf
    · obtain ⟨h1, h2⟩ := cfSkillCoverageGaps_spec workers tasks f hf
      exact ⟨by rw [h1]; simp, h2⟩
    · obtain ⟨h1, h2⟩ := cfMaxConcurrency_spec workers tasks f hf
      exact ⟨by rw [h1]; simp, h2⟩
    · obtain ⟨h1, h2⟩ := cfOverloadedWorkers_spec workers tasks f hf
      exact ⟨by rw [h1]; simp, h2⟩
    · obtain ⟨h1, h2⟩ := cfPhaseSlotSaturation_spec workers tasks f hf
      exact ⟨by rw [h1]; simp, h2⟩
  · simp at hf

theorem cfValidateAll_brv_spec (clients : List Client) (workers : List Worker)
    (tasks : List Task) (businessRules : List BusinessRule) :
    ∀ f ∈ (CrossFileValidationEngine.validateAll clients workers tasks
        businessRules).businessRuleViolations,
      f.type ∈ ["circular_corun_dependency", "slot_restriction_violation"] ∧
        f.severity ∈ ["error", "warning"] := by
  intro f hf
  simp only [CrossFileValidationEngine.validateAll] at hf
  split at hf
  · simp only [List.mem_append] at hf
    rcases hf with hf | hf
    · obtain ⟨h1, h2⟩ := cfCircularCoRun_spec businessRules f hf
      exact ⟨by rw [h1]; simp, by rw [h2]; simp⟩
    · obtain ⟨h1, h2⟩ := cfSlotRestriction_spec businessRules f hf
      exact ⟨by rw [h1]; simp, by rw [h2]; simp⟩
  · simp at hf

/-! ## Claim C1 — cycle detection over CoRun rules -/

/-- C1 (code bug): on the three-rule cycle `{T1,T2}`, `{T2,T3}`, `{T3,T1}`
`validateAll` does produce exactly one `circular_corun_dependency`
finding, as the claim states; but on the two disjoint pair rules
`{T1,T2}`, `{T3,T4}` — where the claim requires none — it also produces
one, because the DFS turns every pair inside a single CoRun rule into the
two-node cycle `a → b → a`. -/
theorem claim1_cycle_detection_eval :
    ((CrossFileValidationEngine.validateAll [clientC1] [workerW1] [] ruleTriangle).businessRuleViolations.filter
      (fun f => f.type == "circular_corun_dependency")).length = 1 ∧
    ((CrossFileValidationEngine.validateAll [clientC1] [workerW1] [] ruleDisjoint).businessRuleViolations.filter
      (fun f => f.type == "circular_corun_dependency")).length = 1 := by
  decide

/-! ## Claim C2 — cross-file checks and the two-dataset gate -/

/-- C2 (counterexample): with only the client dataset non-empty, the
`ValidationEngine` run still produces an `unknown_reference` finding —
its cross-file checks are not gated on two datasets being populated. -/
theorem claim2_counterexample :
    ((ValidationEngine.validateAll [clientC1] [] []).errors.map (·.type)) =
      ["unknown_reference"] := by
  decide

/-- C2 (amended): the `CrossFileValidationEngine` is gated as claimed:
whenever fewer than 2 of the three datasets are non-empty
(`hasMultipleDataSources` is false), its `validateAll` returns the empty
result, so no cross-file finding of any kind is produced by it. -/
theorem claim2_cross_file_gate (clients : List Client) (workers : List Worker)
    (tasks : List Task) (businessRules : List BusinessRule)
    (h : CrossFileValidationEngine.hasMultipleDataSources clients workers tasks = false) :
    CrossFileValidationEngine.validateAll clients workers tasks businessRules =
      { errors := [], warnings := [], businessRuleViolations := [] } := by
  simp [CrossFileValidationEngine.validateAll, h]

/-- C2 (witness): the gate theorem applied to a single-dataset input. -/
theorem claim2_cross_file_gate_witness :
    CrossFileValidationEngine.hasMultipleDataSources [clientC1] [] [] = false ∧
    CrossFileValidationEngine.validateAll [clientC1] [] [] ruleTriangle =
      { errors := [], warnings := [], businessRuleViolations := [] } :=
  ⟨by decide, claim2_cross_file_gate [clientC1] [] [] ruleTriangle (by decide)⟩

/-! ## Claim C7 — `isValid` equals "no error-severity findings" -/

/-- C7: the report's `isValid` flag equals the error-severity finding
count being zero; warnings never affect it. -/
theorem claim7_isValid_iff_no_errors (clients : List Client) (workers : List Worker)
    (tasks : List Task) :
    (ValidationEngine.validateAll clients workers tasks).isValid =
      (((ValidationEngine.validateAll clients workers tasks).errors ++
        (ValidationEngine.validateAll clients workers tasks).warnings).countP
          (fun f => f.severity == "error") == 0) := by
  have herr : ((ValidationEngine.validateAll clients workers tasks).errors).countP
      (fun f => f.severity == "error") =
      ((ValidationEngine.validateAll clients workers tasks).errors).length := by
    apply List.countP_eq_length.mpr
    intro f hf
    have := (veValidateAll_errors_spec clients workers tasks f hf).2
    simp [this]
  have hwarn : ((ValidationEngine.validateAll clients workers tasks).warnings).countP
      (fun f => f.severity == "error") = 0 := by
    apply List.countP_eq_zero.mpr
    intro f hf
    have := (veValidateAll_warnings_spec clients workers tasks f hf).2
    simp [this]
  rw [List.countP_append, herr, hwarn]
  simp only [ValidationEngine.validateAll]
  simp

/-! ## Claim C10 — routing of business-rule findings -/

/-- C10: `circular_corun_dependency` and `slot_restriction_violation`
findings appear only in `businessRuleViolations`, never in the `errors`
or `warnings` of the cross-file result — even though a circular co-run
finding carries severity `error`. -/
theorem claim10_business_rule_routing (clients : List Client) (workers : List Worker)
    (tasks : List Task) (businessRules : List BusinessRule) :
    ((CrossFileValidationEngine.validateAll clients workers tasks businessRules).errors.all
      (fun f => f.type != "circular_corun_dependency" &&
        f.type != "slot_restriction_violation")) = true ∧
    ((CrossFileValidationEngine.validateAll clients workers tasks businessRules).warnings.all
      (fun f => f.type != "circular_corun_dependency" &&
        f.type != "slot_restriction_violation")) = true ∧
    ((CrossFileValidationEngine.validateAll clients workers tasks
        businessRules).businessRuleViolations.all
      (fun f => f.type == "circular_corun_dependency" ||
        f.type == "slot_restriction_violation")) = true := by
  refine ⟨?_, ?_, ?_⟩
  · rw [List.all_eq_true]
    intro f hf
    have h1 := (cfValidateAll_errors_spec clients workers tasks businessRules f hf).1
    simp only [List.mem_cons, List.not_mem_nil, or_false] at h1
    rcases h1 with h1 | h1 <;> simp [h1]
  · rw [List.all_eq_true]
    intro f hf
    have h1 := (cfValidateAll_warnings_spec clients workers tasks businessRules f hf).1
    simp only [List.mem_cons, List.not_mem_nil, or_false] at h1
    rcases h1 with h1 | h1 | h1 | h1 <;> simp [h1]
  · rw [List.all_eq_true]
    intro f hf
    have h1 := (cfValidateAll_brv_spec clients workers tasks businessRules f hf).1
    simp only [List.mem_cons, List.not_mem_nil, or_false] at h1
    rcases h1 with h1 | h1 <;> simp [h1]

/-! ## Claims C6 and C9 — the integer-set codec -/

/-- A split with no separator present returns the whole list. -/
theorem splitChars_eq_self (p : Char → Bool) (cs : List Char)
    (h : ∀ c ∈ cs, p c = false) : splitChars p cs = [cs] := by
  induction cs with
  | nil => rfl
  | cons c cs ih =>
    have hc := h c (List.mem_cons_self c cs)
    have ih' := ih (fun d hd => h d (List.mem_cons_of_mem c hd))
    simp [splitChars, hc, ih']

/-- A `true` result of `List.contains` means membership. -/
theorem contains_true_mem {α : Type} [BEq α] [LawfulBEq α] {l : List α} {a : α}
    (h : l.contains a = true) : a ∈ l := by
  simp only [List.contains] at h
  exact List.elem_iff.mp h

/-- A `false` result of `List.contains` means non-membership. -/
theorem contains_false_not_mem {α : Type} [BEq α] [LawfulBEq α] {l : List α} {a : α}
    (h : l.contains a = false) : a ∉ l := by
  intro hm
  have hmem : l.elem a = true := List.elem_iff.mpr hm
  simp only [List.contains] at h
  rw [h] at hmem
  exact Bool.false_ne_true hmem

/-- `s.split(sep)` with no separator occurrence returns `[s]`. -/
theorem jsSplitChar_eq_self (sep : Char) (s : String)
    (h : s.data.contains sep = false) : jsSplitChar sep s = [s] := by
  have hnm := contains_false_not_mem h
  have h' : ∀ c ∈ s.data, (decide (c = sep)) = false := by
    intro c hc
    by_contra hne
    have hcs : c = sep := by simpa using hne
    subst hcs
    exact hnm hc
  have := splitChars_eq_self (fun c => decide (c = sep)) s.data h'
  simp [jsSplitChar, this]

/-- C6 (counterexample): on the mixed-type bracketed array `["a",2]`
the codec returns the partially numeric list `[NaN, 2]`, not the
invalid/empty-set outcome. -/
theorem claim6_counterexample :
    CrossFileValidationEngine.parsePhases "[\"a\",2]" = [JsNum.nan, JsNum.num 2] ∧
    CrossFileValidationEngine.parseSlots "[\"a\",2]" = [JsNum.nan, JsNum.num 2] ∧
    ([JsNum.nan, JsNum.num 2] : List JsNum) ≠ [] := by
  decide

/-- C6 (amended): the codec is total and fail-soft in the sense that a
`JSON.parse` failure on bracketed content is caught and yields the empty
set — but a *successfully* parsed bracketed array is converted
element-wise by `Number`, so mixed-type content yields a partially
numeric result containing `NaN` entries rather than the empty set. -/
theorem claim6_codec_fail_soft : ∀ (s : String) (l : List Json),
    s.data.contains '[' = true →
    (jsonParse s = none →
      CrossFileValidationEngine.parsePhases s = [] ∧
      CrossFileValidationEngine.parseSlots s = []) ∧
    (jsonParse s = some (Json.arr l) →
      CrossFileValidationEngine.parsePhases s = l.map jsonToNumber ∧
      CrossFileValidationEngine.parseSlots s = l.map jsonToNumber) := by
  intro s l hbr
  have hbr' : '[' ∈ s.data := contains_true_mem hbr
  have hs : s ≠ "" := by
    intro h
    subst h
    simp at hbr
  constructor
  · intro hp
    constructor <;>
      simp [CrossFileValidationEngine.parsePhases, CrossFileValidationEngine.parseSlots,
        hs, hbr', hp]
  · intro hp
    constructor <;>
      simp [CrossFileValidationEngine.parsePhases, CrossFileValidationEngine.parseSlots,
        hs, hbr', hp]

/-- C6 (witness): the fail-soft theorem applied to the mixed-type array
`["a",2]`. -/
theorem claim6_codec_fail_soft_witness :
    ("[\"a\",2]".data.contains '[' = true) ∧
    jsonParse "[\"a\",2]" = some (Json.arr [Json.str "a", Json.num 2]) ∧
    CrossFileValidationEngine.parsePhases "[\"a\",2]" =
      [Json.str "a", Json.num 2].map jsonToNumber :=
  ⟨by decide, by rfl,
    ((claim6_codec_fail_soft "[\"a\",2]" [Json.str "a", Json.num 2] (by decide)).2
      (by rfl)).1⟩

/-- C9: a string in range notation `a-b` (no bracket, no comma, not
itself numeric) parses to the full inclusive range under `parsePhases`
but to the empty set under `parseSlots` (which has no range branch: the
whole string goes through `Number` and is dropped as `NaN`); hence a
worker whose `AvailableSlots` uses range notation contributes no
available phase to the cross-file checks. -/
theorem claim9_range_notation (s sa sb : String) (a b : Int)
    (h1 : s.data.contains '[' = false)
    (h2 : s.data.contains ',' = false)
    (h3 : jsNumber (jsTrim s) = JsNum.nan)
    (h4 : jsSplitChar '-' s = [sa, sb])
    (h5 : jsNumber sa = JsNum.num a)
    (h6 : jsNumber sb = JsNum.num b) :
    CrossFileValidationEngine.parseSlots s = [] ∧
    CrossFileValidationEngine.parsePhases s = (intRange a b).map JsNum.num ∧
    (∀ (w : Worker) (ws : List Worker), w.AvailableSlots = s →
      CrossFileValidationEngine.collectAvailablePhases (w :: ws) =
        CrossFileValidationEngine.collectAvailablePhases ws) := by
  have h1' : '[' ∉ s.data := contains_false_not_mem h1
  have hs : s ≠ "" := by
    intro h
    subst h
    have hempty : jsSplitChar '-' "" = [""] := rfl
    rw [hempty] at h4
    simp at h4
  have hcomma : jsSplitChar ',' s = [s] := jsSplitChar_eq_self ',' s h2
  have hslots : CrossFileValidationEngine.parseSlots s = [] := by
    simp [CrossFileValidationEngine.parseSlots, hs, h1', hcomma, h3]
  have hdash : '-' ∈ s.data := by
    by_contra hd
    have hd' : s.data.contains '-' = false := by
      cases hval : s.data.contains '-'
      · rfl
      · exact absurd (contains_true_mem hval) hd
    have := jsSplitChar_eq_self '-' s hd'
    rw [this] at h4
    simp at h4
  refine ⟨hslots, ?_, ?_⟩
  · simp [CrossFileValidationEngine.parsePhases, hs, h1', hdash, h4, h5, h6]
  · intro w ws hw
    simp [CrossFileValidationEngine.collectAvailablePhases, hw, hslots, jsDedup]

/-- C9 (witness): the range-notation theorem applied at `"1-5"`, with the
no-contribution conjunct applied to a worker whose `AvailableSlots` is
`"1-5"`. -/
theorem claim9_range_notation_witness :
    CrossFileValidationEngine.parseSlots "1-5" = [] ∧
    CrossFileValidationEngine.parsePhases "1-5" = (intRange 1 5).map JsNum.num ∧
    CrossFileValidationEngine.collectAvailablePhases [workerRange, workerW1] =
      CrossFileValidationEngine.collectAvailablePhases [workerW1] := by
  obtain ⟨hA, hB, hC⟩ := claim9_range_notation "1-5" "1" "5" 1 5 (by decide) (by decide)
    (by decide) (by decide) (by decide) (by decide)
  exact ⟨hA, hB, hC workerRange [workerW1] rfl⟩

/-! ## Claim C3 — the finding-kind taxonomy -/

/-- C3 (counterexample): a run over a single task emits findings of the
kinds `skill_coverage` and `max_concurrency_feasibility`, neither of
which belongs to the closed taxonomy of §7. -/
theorem claim3_counterexample :
    ((ValidationEngine.validateAll [] [] [taskT0]).warnings.map (·.type)) =
      ["skill_coverage", "max_concurrency_feasibility"] ∧
    taxonomyKinds.contains "skill_coverage" = false ∧
    taxonomyKinds.contains "max_concurrency_feasibility" = false := by
  decide

/-- C3 (amended): every finding emitted by either engine has a kind from
the §7 taxonomy *extended with* `skill_coverage` and
`max_concurrency_feasibility` — the two kinds the structural engine uses
in place of `skill_coverage_gap` and `max_concurrency_violation`; the
cross-file engine's findings all stay within the §7 taxonomy. -/
theorem claim3_taxonomy (clients : List Client) (workers : List Worker)
    (tasks : List Task) (businessRules : List BusinessRule) :
    (((ValidationEngine.validateAll clients workers tasks).errors ++
      (ValidationEngine.validateAll clients workers tasks).warnings).all
      (fun f => (taxonomyKinds ++
        ["skill_coverage", "max_concurrency_feasibility"]).contains f.type)) = true ∧
    (((CrossFileValidationEngine.validateAll clients workers tasks businessRules).errors ++
      (CrossFileValidationEngine.validateAll clients workers tasks businessRules).warnings ++
      (CrossFileValidationEngine.validateAll clients workers tasks
        businessRules).businessRuleViolations).all
      (fun f => taxonomyKinds.contains f.type)) = true := by
  constructor
  · rw [List.all_eq_true]
    intro f hf
    rcases List.mem_append.mp hf with hf | hf
    · have h := (veValidateAll_errors_spec clients workers tasks f hf).1
      simp only [List.mem_cons, List.not_mem_nil, or_false] at h
      rcases h with h | h | h | h | h | h <;> (rw [h]; decide)
    · have h := (veValidateAll_warnings_spec clients workers tasks f hf).1
      simp only [List.mem_cons, List.not_mem_nil, or_false] at h
      rcases h with h | h | h <;> (rw [h]; decide)
  · rw [List.all_eq_true]
    intro f hf
    rcases List.mem_append.mp hf with hf | hf
    · rcases List.mem_append.mp hf with hf | hf
      · have h := (cfValidateAll_errors_spec clients workers tasks businessRules f hf).1
        simp only [List.mem_cons, List.not_mem_nil, or_false] at h
        rcases h with h | h <;> (rw [h]; decide)
      · have h := (cfValidateAll_warnings_spec clients workers tasks businessRules f hf).1
        simp only [List.mem_cons, List.not_mem_nil, or_false] at h
        rcases h with h | h | h | h <;> (rw [h]; decide)
    · have h := (cfValidateAll_brv_spec clients workers tasks businessRules f hf).1
      simp only [List.mem_cons, List.not_mem_nil, or_false] at h
      rcases h with h | h <;> (rw [h]; decide)

/-! ## Claim C8 — monotonicity of unknown-reference repair -/

/-- Appending a task only shrinks a client's unknown-reference list. -/
theorem unknownTasksOf_append_subset (c : Client) (tasks : List Task) (t : Task) :
    ∀ j ∈ CrossFileValidationEngine.unknownTasksOf c ((tasks ++ [t]).map (·.TaskID)),
      j ∈ CrossFileValidationEngine.unknownTasksOf c (tasks.map (·.TaskID)) := by
  intro j hj
  simp only [CrossFileValidationEngine.unknownTasksOf, List.mem_filter] at hj ⊢
  refine ⟨hj.1, ?_⟩
  have h2 := hj.2
  simp only [Bool.and_eq_true, Bool.not_eq_true'] at h2 ⊢
  refine ⟨h2.1, ?_⟩
  cases hv : CrossFileValidationEngine.jsonStrMem j (tasks.map (·.TaskID))
  · rfl
  · exfalso
    have hbig : CrossFileValidationEngine.jsonStrMem j ((tasks ++ [t]).map (·.TaskID)) = true := by
      rcases j with _ | _ | _ | s | _ <;> simp [CrossFileValidationEngine.jsonStrMem] at hv ⊢
      exact Or.inl hv
    rw [h2.2] at hbig
    exact Bool.false_ne_true hbig

/-- Characterization of the unknown-reference findings emitted for row
`i`: one exists exactly when client `i` has a truthy `RequestedTaskIDs`
and a non-empty unknown list. -/
theorem cfUnknown_mem_iff (clients : List Client) (tasks : List Task)
    (hc : clients ≠ []) (ht : tasks ≠ []) (i : Nat) :
    (∃ f ∈ CrossFileValidationEngine.validateUnknownReferences clients tasks,
      f.affectedRows = [(i : Int)]) ↔
    (∃ c, clients.get? i = some c ∧ c.RequestedTaskIDs ≠ "" ∧
      CrossFileValidationEngine.unknownTasksOf c (tasks.map (·.TaskID)) ≠ []) := by
  constructor
  · rintro ⟨f, hf, hrows⟩
    simp only [CrossFileValidationEngine.validateUnknownReferences] at hf
    split at hf
    · simp at hf
    · obtain ⟨p, hpmem, hp⟩ := List.mem_filterMap.mp hf
      try dsimp only at hp
      split at hp
      · simp at hp
      · split at hp
        · cases hp
          have hrows' : ([(p.1 : Int)] : List Int) = [(i : Int)] := by
            simpa [CrossFileValidationEngine.unknownFinding] using hrows
          have hpi : p.1 = i := by
            have := List.head_eq_of_cons_eq hrows'
            exact_mod_cast this
          refine ⟨p.2, ?_, by assumption, ?_⟩
          · rw [← hpi]
            exact List.mem_enum_iff_get?.mp hpmem
          · intro hempty
            simp_all
        · simp at hp
  · rintro ⟨c, hget, hreq, hunk⟩
    simp only [CrossFileValidationEngine.validateUnknownReferences]
    split
    · rename_i hguard
      rcases hguard with hguard | hguard
      · exact absurd (List.eq_nil_of_length_eq_zero hguard) hc
      · exact absurd (List.eq_nil_of_length_eq_zero hguard) ht
    · refine ⟨CrossFileValidationEngine.unknownFinding i c (tasks.map (·.TaskID)),
        List.mem_filterMap.mpr ⟨(i, c), List.mem_enum_iff_get?.mpr hget, ?_⟩, rfl⟩
      dsimp only
      rw [if_neg hreq, if_pos (List.length_pos.mpr hunk)]

/-- C8 (counterexample): the original run reports the unknown reference
`T9`; extending the task set with a task whose id is `T9` removes that
finding but introduces an `invalid_phase_reference` finding that was
absent from the original report (the added task prefers phase 99, which
no worker offers). -/
theorem claim8_counterexample :
    ((CrossFileValidationEngine.validateAll [clientC1] [workerW1] [taskT1] []).errors.map
      (·.type)) = ["unknown_reference"] ∧
    ((CrossFileValidationEngine.validateAll [clientC1] [workerW1] [taskT1, taskT9] []).errors.map
      (·.type)) = ["invalid_phase_reference"] := by
  decide

/-- C8 (amended): within the unknown-reference check itself the repair is
monotone: (1) adding a task introduces no unknown-reference finding for
any client row that did not already have one; (2) a client whose unknown
references all equal the added task's id has no unknown-reference finding
in the extended run. Findings of other kinds may still appear for the
newly added task. -/
theorem claim8_unknown_reference_monotonicity (clients : List Client)
    (tasks : List Task) (t : Task) :
    (∀ i : Nat, tasks ≠ [] →
      (∃ f ∈ CrossFileValidationEngine.validateUnknownReferences clients (tasks ++ [t]),
        f.affectedRows = [(i : Int)]) →
      ∃ f ∈ CrossFileValidationEngine.validateUnknownReferences clients tasks,
        f.affectedRows = [(i : Int)]) ∧
    (∀ (i : Nat) (c : Client), clients.get? i = some c →
      (∀ j ∈ CrossFileValidationEngine.unknownTasksOf c (tasks.map (·.TaskID)),
        j = Json.str t.TaskID) →
      ∀ f ∈ CrossFileValidationEngine.validateUnknownReferences clients (tasks ++ [t]),
        f.affectedRows ≠ [(i : Int)]) := by
  constructor
  · intro i ht hex
    have hc : clients ≠ [] := by
      rcases hex with ⟨f, hf, _⟩
      intro hnil
      subst hnil
      simp [CrossFileValidationEngine.validateUnknownReferences] at hf
    obtain ⟨c, hget, hreq, hunk⟩ :=
      (cfUnknown_mem_iff clients (tasks ++ [t]) hc (by simp) i).mp hex
    refine (cfUnknown_mem_iff clients tasks hc ht i).mpr ⟨c, hget, hreq, ?_⟩
    intro hempty
    rcases List.exists_mem_of_ne_nil _ hunk with ⟨j, hj⟩
    have := unknownTasksOf_append_subset c tasks t j hj
    rw [hempty] at this
    exact List.not_mem_nil j this
  · intro i c hget hall f hf hrows
    have hc : clients ≠ [] := by
      intro hnil
      subst hnil
      simp at hget
    have hex : ∃ f ∈ CrossFileValidationEngine.validateUnknownReferences clients
        (tasks ++ [t]), f.affectedRows = [(i : Int)] := ⟨f, hf, hrows⟩
    obtain ⟨c', hget', hreq', hunk'⟩ :=
      (cfUnknown_mem_iff clients (tasks ++ [t]) hc (by simp) i).mp hex
    have hcc : c' = c := by
      rw [hget] at hget'
      exact (Option.some.inj hget').symm ▸ rfl
    subst hcc
    rcases List.exists_mem_of_ne_nil _ hunk' with ⟨j, hj⟩
    have hjold := unknownTasksOf_append_subset c' tasks t j hj
    have hjX : j = Json.str t.TaskID := hall j hjold
    subst hjX
    simp only [CrossFileValidationEngine.unknownTasksOf, List.mem_filter] at hj
    have h2 := hj.2
    simp only [Bool.and_eq_true, Bool.not_eq_true'] at h2
    have : CrossFileValidationEngine.jsonStrMem (Json.str t.TaskID)
        ((tasks ++ [t]).map (·.TaskID)) = true := by
      simp [CrossFileValidationEngine.jsonStrMem]
    rw [h2.2] at this
    exact Bool.false_ne_true this

/-- C8 (witness): the monotonicity theorem applied to the concrete
repair of client `C1`'s unknown reference `T9`. -/
theorem claim8_monotonicity_witness :
    ((CrossFileValidationEngine.validateUnknownReferences [clientC1]
      ([taskT1] ++ [taskT9])).all (fun f => f.affectedRows != [(0 : Int)])) = true := by
  apply List.all_eq_true.mpr
  intro f hf
  have h := (claim8_unknown_reference_monotonicity [clientC1] [taskT1] taskT9).2 0 clientC1
    rfl (by
      intro j hj
      have heval : CrossFileValidationEngine.unknownTasksOf clientC1
          ([taskT1].map (·.TaskID)) = [Json.str "T9"] := rfl
      rw [heval] at hj
      simp at hj
      rw [hj]
      rfl)
    f hf
  simpa using h

/-! ## Claim C5 — duplicate-identifier detection -/

/-- Invariant of the `findDuplicates` fold: an element is in the result
exactly when it was already recorded as a duplicate, or it was seen
before and occurs again, or it occurs at least twice in the rest. -/
theorem findDuplicatesAux_mem_iff {α : Type} [DecidableEq α] (xs : List α) :
    ∀ (seen dups : List α) (x : α),
      x ∈ findDuplicatesAux seen dups xs ↔
        x ∈ dups ∨ (x ∈ seen ∧ 1 ≤ xs.count x) ∨ 2 ≤ xs.count x := by
  induction xs with
  | nil =>
    intro seen dups x
    simp [findDuplicatesAux]
  | cons y xs ih =>
    intro seen dups x
    simp only [findDuplicatesAux]
    split_ifs with h1 h2
    · rw [ih]
      by_cases hxy : x = y
      · subst hxy
        constructor <;> intro _ <;> exact Or.inl h2
      · rw [List.count_cons_of_ne hxy]
    · rw [ih]
      by_cases hxy : x = y
      · subst hxy
        constructor
        · intro _
          refine Or.inr (Or.inl ⟨h1, ?_⟩)
          rw [List.count_cons_self]
          omega
        · intro _
          exact Or.inl (by simp)
      · rw [List.count_cons_of_ne hxy]
        simp only [List.mem_append, List.mem_singleton, hxy, or_false]
    · rw [ih]
      by_cases hxy : x = y
      · subst hxy
        rw [List.count_cons_self]
        constructor
        · rintro (h | ⟨hs, hc⟩ | hc)
          · exact Or.inl h
          · exact Or.inr (Or.inr (by omega))
          · exact Or.inr (Or.inr (by omega))
        · rintro (h | ⟨hs, hc⟩ | hc)
          · exact Or.inl h
          · exact absurd hs h1
          · exact Or.inr (Or.inl ⟨List.mem_cons_self x seen, by omega⟩)
      · rw [List.count_cons_of_ne hxy]
        simp only [List.mem_cons, hxy, false_or]

/-- `findDuplicates` returns exactly the values of multiplicity ≥ 2. -/
theorem findDuplicates_mem_iff {α : Type} [DecidableEq α] (l : List α) (x : α) :
    x ∈ findDuplicates l ↔ 2 ≤ l.count x := by
  rw [findDuplicates, findDuplicatesAux_mem_iff]
  simp

/-- Dropping the `-1` sentinel keeps exactly the indices passing the
condition. -/
theorem sentinel_filter {α : Type} (l : List (Nat × α)) (cond : Nat × α → Bool) :
    ((l.map (fun p => if cond p then (p.1 : Int) else (-1 : Int))).filter
      (fun i => i != -1)) = ((l.filter cond).map (fun p => (p.1 : Int))) := by
  induction l with
  | nil => rfl
  | cons p l ih =>
    by_cases hc : cond p = true
    · have hne : (((p.1 : Int)) != -1) = true := by
        simp only [bne_iff_ne, ne_eq]
        omega
      simp [hc, ih, hne]
    · simp [hc, ih]

/-- The affected-row computation of `validateDuplicateIDs` equals the
specification-side `dupRows`. -/
theorem dupRows_code_eq {α : Type} (l : List α) (idOf : α → String) :
    ((l.enum.map (fun p =>
      if (findDuplicates (l.map idOf)).contains (idOf p.2) then (p.1 : Int) else -1)).filter
        (fun i => i != -1)) = dupRows (l.map idOf) := by
  rw [sentinel_filter, dupRows, List.enum_map]
  rw [List.map_filter]
  rw [List.map_map]
  have hfun : ((fun q : Nat × String => (q.1 : Int)) ∘ Prod.map id idOf) =
      (fun p : Nat × α => (p.1 : Int)) := by
    funext p
    rfl
  rw [hfun]
  have hcond : ∀ p ∈ l.enum,
      ((findDuplicates (l.map idOf)).contains (idOf p.2)) =
      ((fun q : Nat × String => decide (2 ≤ (l.map idOf).count q.2)) ∘ Prod.map id idOf) p := by
    intro p _
    simp only [Function.comp_apply, Prod.map_apply, id_eq]
    by_cases hm : idOf p.2 ∈ findDuplicates (l.map idOf)
    · have hc := (findDuplicates_mem_iff (l.map idOf) (idOf p.2)).mp hm
      simp [List.contains, List.elem_iff, hm, hc]
    · have hc : ¬ 2 ≤ (l.map idOf).count (idOf p.2) := fun h =>
        hm ((findDuplicates_mem_iff (l.map idOf) (idOf p.2)).mpr h)
      simp [List.contains, List.elem_iff, hm, hc]
  rw [List.filter_congr hcond]

/-- A dataset has a duplicated identifier exactly when some row index is
a duplicate row. -/
theorem findDuplicates_nil_iff_dupRows (ids : List String) :
    findDuplicates ids = [] ↔ dupRows ids = [] := by
  constructor
  · intro h
    rw [dupRows, List.map_eq_nil, List.filter_eq_nil_iff]
    intro q hq
    simp only [decide_eq_true_eq]
    intro hc
    have := (findDuplicates_mem_iff ids q.2).mpr hc
    rw [h] at this
    exact List.not_mem_nil _ this
  · intro h
    rw [List.eq_nil_iff_forall_not_mem]
    intro x hx
    have hc := (findDuplicates_mem_iff ids x).mp hx
    have hxmem : x ∈ ids := List.count_pos_iff_mem.mp (by omega)
    obtain ⟨n, hget⟩ := List.mem_iff_get.mp hxmem
    have henum : (n.1, x) ∈ ids.enum := by
      apply List.mem_enum_iff_get?.mpr
      rw [List.get?_eq_get n.2]
      rw [hget]
    rw [dupRows, List.map_eq_nil, List.filter_eq_nil_iff] at h
    exact h (n.1, x) henum (by simpa using hc)

/-- C5 (counterexample): with the identifier `A` occupying exactly rows
`{0,1}` and `B` occupying rows `{2,3}`, the single `duplicate_ids`
finding's affected-row set is `[0,1,2,3]`, not exactly the two rows of
`A`: the code aggregates all duplicated identifiers of a dataset into one
finding. -/
theorem claim5_counterexample :
    ((ValidationEngine.validateDuplicateIDs
        [clientWithID "A", clientWithID "A", clientWithID "B", clientWithID "B"] [] []).map
      (·.affectedRows)) = [[0, 1, 2, 3]] ∧
    ([0, 1, 2, 3] : List Int) ≠ [0, 1] := by
  decide

/-- C5 (amended): per dataset, `validateDuplicateIDs` emits one
`duplicate_ids` finding exactly when some identifier has multiplicity
≥ 2, and that finding's affected-row set is exactly the set of all row
indices whose identifier has multiplicity ≥ 2 — so it contains the k rows
of every duplicated identifier and never a row whose identifier has
multiplicity 1. -/
theorem clientDup_rows_eq (clients : List Client) :
    ((clients.enum.map (fun p =>
      if (findDuplicates (clients.map (·.ClientID))).contains p.2.ClientID
      then (p.1 : Int) else -1)).filter (fun i => i != -1)) =
      dupRows (clients.map (·.ClientID)) :=
  dupRows_code_eq clients (·.ClientID)

theorem workerDup_rows_eq (workers : List Worker) :
    ((workers.enum.map (fun p =>
      if (findDuplicates (workers.map (·.WorkerID))).contains p.2.WorkerID
      then (p.1 : Int) else -1)).filter (fun i => i != -1)) =
      dupRows (workers.map (·.WorkerID)) :=
  dupRows_code_eq workers (·.WorkerID)

theorem taskDup_rows_eq (tasks : List Task) :
    ((tasks.enum.map (fun p =>
      if (findDuplicates (tasks.map (·.TaskID))).contains p.2.TaskID
      then (p.1 : Int) else -1)).filter (fun i => i != -1)) =
      dupRows (tasks.map (·.TaskID)) :=
  dupRows_code_eq tasks (·.TaskID)

/-- The client duplicate section filtered to its own column key. -/
theorem clientDupPart_rows (clients : List Client) :
    (((ValidationEngine.clientDupPart clients).filter
      (fun f => f.affectedColumns == ["ClientID"])).map (·.affectedRows)) =
      (if dupRows (clients.map (·.ClientID)) = [] then []
       else [dupRows (clients.map (·.ClientID))]) := by
  simp only [ValidationEngine.clientDupPart]
  split
  · rename_i h
    have hne : dupRows (clients.map (·.ClientID)) ≠ [] := by
      intro h0
      have hfd := (findDuplicates_nil_iff_dupRows _).mpr h0
      rw [hfd] at h
      simp at h
    rw [if_neg hne]
    rw [List.filter_singleton]
    simp only [beq_self_eq_true, cond_true, List.map_cons, List.map_nil]
    rw [clientDup_rows_eq]
  · rename_i h
    have h0 : findDuplicates (clients.map (·.ClientID)) = [] := by
      cases hfd : findDuplicates (clients.map (·.ClientID)) with
      | nil => rfl
      | cons a l =>
        rw [hfd] at h
        simp at h
    rw [(findDuplicates_nil_iff_dupRows _).mp h0]
    simp

/-- The worker duplicate section filtered to its own column key. -/
theorem workerDupPart_rows (workers : List Worker) :
    (((ValidationEngine.workerDupPart workers).filter
      (fun f => f.affectedColumns == ["WorkerID"])).map (·.affectedRows)) =
      (if dupRows (workers.map (·.WorkerID)) = [] then []
       else [dupRows (workers.map (·.WorkerID))]) := by
  simp only [ValidationEngine.workerDupPart]
  split
  · rename_i h
    have hne : dupRows (workers.map (·.WorkerID)) ≠ [] := by
      intro h0
      have hfd := (findDuplicates_nil_iff_dupRows _).mpr h0
      rw [hfd] at h
      simp at h
    rw [if_neg hne]
    rw [List.filter_singleton]
    simp only [beq_self_eq_true, cond_true, List.map_cons, List.map_nil]
    rw [workerDup_rows_eq]
  · rename_i h
    have h0 : findDuplicates (workers.map (·.WorkerID)) = [] := by
      cases hfd : findDuplicates (workers.map (·.WorkerID)) with
      | nil => rfl
      | cons a l =>
        rw [hfd] at h
        simp at h
    rw [(findDuplicates_nil_iff_dupRows _).mp h0]
    simp

/-- The task duplicate section filtered to its own column key. -/
theorem taskDupPart_rows (tasks : List Task) :
    (((ValidationEngine.taskDupPart tasks).filter
      (fun f => f.affectedColumns == ["TaskID"])).map (·.affectedRows)) =
      (if dupRows (tasks.map (·.TaskID)) = [] then []
       else [dupRows (tasks.map (·.TaskID))]) := by
  simp only [ValidationEngine.taskDupPart]
  split
  · rename_i h
    have hne : dupRows (tasks.map (·.TaskID)) ≠ [] := by
      intro h0
      have hfd := (findDuplicates_nil_iff_dupRows _).mpr h0
      rw [hfd] at h
      simp at h
    rw [if_neg hne]
    rw [List.filter_singleton]
    simp only [beq_self_eq_true, cond_true, List.map_cons, List.map_nil]
    rw [taskDup_rows_eq]
  · rename_i h
    have h0 : findDuplicates (tasks.map (·.TaskID)) = [] := by
      cases hfd : findDuplicates (tasks.map (·.TaskID)) with
      | nil => rfl
      | cons a l =>
        rw [hfd] at h
        simp at h
    rw [(findDuplicates_nil_iff_dupRows _).mp h0]
    simp

/-- A duplicate section filtered to a foreign column key is empty. -/
theorem clientDupPart_filter_ne (clients : List Client) (key : List String)
    (h : ((["ClientID"] : List String) == key) = false) :
    (ValidationEngine.clientDupPart clients).filter
      (fun f => f.affectedColumns == key) = [] := by
  simp only [ValidationEngine.clientDupPart]
  split
  · rw [List.filter_singleton]
    simp only [h, cond_false]
  · rfl

/-- A duplicate section filtered to a foreign column key is empty. -/
theorem workerDupPart_filter_ne (workers : List Worker) (key : List String)
    (h : ((["WorkerID"] : List String) == key) = false) :
    (ValidationEngine.workerDupPart workers).filter
      (fun f => f.affectedColumns == key) = [] := by
  simp only [ValidationEngine.workerDupPart]
  split
  · rw [List.filter_singleton]
    simp only [h, cond_false]
  · rfl

/-- A duplicate section filtered to a foreign column key is empty. -/
theorem taskDupPart_filter_ne (tasks : List Task) (key : List String)
    (h : ((["TaskID"] : List String) == key) = false) :
    (ValidationEngine.taskDupPart tasks).filter
      (fun f => f.affectedColumns == key) = [] := by
  simp only [ValidationEngine.taskDupPart]
  split
  · rw [List.filter_singleton]
    simp only [h, cond_false]
  · rfl

/-- C5 (amended): per dataset, `validateDuplicateIDs` emits one
`duplicate_ids` finding exactly when some identifier has multiplicity
≥ 2, and that finding's affected-row set is exactly the set of all row
indices whose identifier has multiplicity ≥ 2 — so it contains the k rows
of every duplicated identifier and never a row whose identifier has
multiplicity 1. -/
theorem claim5_duplicate_rows (clients : List Client) (workers : List Worker)
    (tasks : List Task) :
    (((ValidationEngine.validateDuplicateIDs clients workers tasks).filter
      (fun f => f.affectedColumns == ["ClientID"])).map (·.affectedRows)) =
      (if dupRows (clients.map (·.ClientID)) = [] then []
       else [dupRows (clients.map (·.ClientID))]) ∧
    (((ValidationEngine.validateDuplicateIDs clients workers tasks).filter
      (fun f => f.affectedColumns == ["WorkerID"])).map (·.affectedRows)) =
      (if dupRows (workers.map (·.WorkerID)) = [] then []
       else [dupRows (workers.map (·.WorkerID))]) ∧
    (((ValidationEngine.validateDuplicateIDs clients workers tasks).filter
      (fun f => f.affectedColumns == ["TaskID"])).map (·.affectedRows)) =
      (if dupRows (tasks.map (·.TaskID)) = [] then []
       else [dupRows (tasks.map (·.TaskID))]) := by
  refine ⟨?_, ?_, ?_⟩
  · rw [ValidationEngine.validateDuplicateIDs, List.filter_append, List.filter_append,
      workerDupPart_filter_ne workers ["ClientID"] (by decide),
      taskDupPart_filter_ne tasks ["ClientID"] (by decide)]
    simp only [List.append_nil]
    exact clientDupPart_rows clients
  · rw [ValidationEngine.validateDuplicateIDs, List.filter_append, List.filter_append,
      clientDupPart_filter_ne clients ["WorkerID"] (by decide),
      taskDupPart_filter_ne tasks ["WorkerID"] (by decide)]
    simp only [List.nil_append, List.append_nil]
    exact workerDupPart_rows workers
  · rw [ValidationEngine.validateDuplicateIDs, List.filter_append, List.filter_append,
      clientDupPart_filter_ne clients ["TaskID"] (by decide),
      workerDupPart_filter_ne workers ["TaskID"] (by decide)]
    simp only [List.nil_append]
    exact taskDupPart_rows tasks

/-! ## Claim C4 — the result aggregator -/

theorem jsDedupAux_mem {α : Type} [DecidableEq α] (l : List α) :
    ∀ (seen : List α) (x : α), x ∈ jsDedupAux seen l ↔ x ∈ l ∧ x ∉ seen := by
  induction l with
  | nil =>
    intro seen x
    simp [jsDedupAux]
  | cons y l ih =>
    intro seen x
    simp only [jsDedupAux]
    split_ifs with hy
    · rw [ih]
      by_cases hxy : x = y
      · subst hxy
        simp [hy]
      · simp [hxy]
    · by_cases hxy : x = y
      · subst hxy
        simp [hy]
      · simp only [List.mem_cons, hxy, false_or]
        rw [ih]
        simp [List.mem_cons, hxy]

theorem jsDedup_mem {α : Type} [DecidableEq α] (l : List α) (x : α) :
    x ∈ jsDedup l ↔ x ∈ l := by
  rw [jsDedup, jsDedupAux_mem]
  simp

theorem jsDedupAux_nodup {α : Type} [DecidableEq α] (l : List α) :
    ∀ seen : List α, (jsDedupAux seen l).Nodup := by
  induction l with
  | nil =>
    intro seen
    simp [jsDedupAux]
  | cons y l ih =>
    intro seen
    simp only [jsDedupAux]
    split_ifs with hy
    · exact ih seen
    · refine List.Nodup.cons ?_ (ih (y :: seen))
      intro hmem
      have := (jsDedupAux_mem l (y :: seen) y).mp hmem
      exact this.2 (List.mem_cons_self y seen)

theorem jsDedup_nodup {α : Type} [DecidableEq α] (l : List α) : (jsDedup l).Nodup :=
  jsDedupAux_nodup l []

theorem jsDedupAux_append_singleton {α : Type} [DecidableEq α] (a : α) (l : List α) :
    ∀ seen : List α, jsDedupAux seen (l ++ [a]) =
      jsDedupAux seen l ++ (if a ∈ seen ∨ a ∈ l then [] else [a]) := by
  induction l with
  | nil =>
    intro seen
    by_cases h : a ∈ seen <;> simp [jsDedupAux, h]
  | cons x l ih =>
    intro seen
    by_cases hx : x ∈ seen
    · rw [List.cons_append,
        show jsDedupAux seen (x :: (l ++ [a])) = jsDedupAux seen (l ++ [a]) from by
          simp [jsDedupAux, hx],
        ih seen,
        show jsDedupAux seen (x :: l) = jsDedupAux seen l from by simp [jsDedupAux, hx]]
      congr 1
      by_cases hax : a = x
      · subst hax
        simp [hx]
      · simp [List.mem_cons, hax]
    · rw [List.cons_append,
        show jsDedupAux seen (x :: (l ++ [a])) = x :: jsDedupAux (x :: seen) (l ++ [a]) from by
          simp [jsDedupAux, hx],
        ih (x :: seen),
        show jsDedupAux seen (x :: l) = x :: jsDedupAux (x :: seen) l from by
          simp [jsDedupAux, hx],
        List.cons_append]
      congr 1
      congr 1
      by_cases hax : a = x
      · subst hax
        simp [List.mem_cons]
      · by_cases has : a ∈ seen
        · simp [List.mem_cons, has]
        · by_cases hal : a ∈ l
          · simp [List.mem_cons, hal]
          · simp [List.mem_cons, hax, has, hal]

theorem kindsOf_append (es : List ValidationError) (e : ValidationError) :
    kindsOf (es ++ [e]) =
      if e.type ∈ es.map (·.type) then kindsOf es else kindsOf es ++ [e.type] := by
  rw [kindsOf, jsDedup, List.map_append, List.map_singleton,
    jsDedupAux_append_singleton]
  simp only [List.not_mem_nil, false_or]
  split_ifs with h
  · simp [kindsOf, jsDedup]
  · simp [kindsOf, jsDedup]

theorem mem_kindsOf (es : List ValidationError) (k : String) :
    k ∈ kindsOf es ↔ k ∈ es.map (·.type) := by
  rw [kindsOf, jsDedup_mem]

theorem kindsOf_filter_ne_nil (es : List ValidationError) :
    ∀ k ∈ kindsOf es, es.filter (fun x => x.type = k) ≠ [] := by
  intro k hk
  obtain ⟨e', he', hty⟩ := List.mem_map.mp ((mem_kindsOf es k).mp hk)
  have : e' ∈ es.filter (fun x => x.type = k) :=
    List.mem_filter.mpr ⟨he', by simp [hty]⟩
  exact List.ne_nil_of_mem this

theorem kindsOf_covers (es : List ValidationError) (e : ValidationError)
    (h : es.filter (fun x => x.type = e.type) ≠ []) : e.type ∈ kindsOf es := by
  obtain ⟨x, hx⟩ := List.exists_mem_of_ne_nil _ h
  have hx' := List.mem_filter.mp hx
  rw [mem_kindsOf]
  refine List.mem_map.mpr ⟨x, hx'.1, ?_⟩
  simpa using hx'.2

theorem rawAgg_append_ne (es : List ValidationError) (e : ValidationError) (k : String)
    (hk : k ≠ e.type) : rawAgg (es ++ [e]) k = rawAgg es k := by
  have hcond : (decide (e.type = k)) = false := by
    simp only [decide_eq_false_iff_not]
    exact fun h => hk h.symm
  simp only [rawAgg, List.filter_append, List.filter_cons, List.filter_nil, hcond,
    Bool.false_eq_true, if_false, List.append_nil]

theorem take3_snoc (xs : List String) (d : String) :
    ((xs ++ [d]).take 3) =
      if (xs.take 3).length < 3 then xs.take 3 ++ [d] else xs.take 3 := by
  rcases xs with _ | ⟨a, _ | ⟨b, _ | ⟨c, rest⟩⟩⟩ <;> simp [List.take]

theorem head?_append_left {α : Type} (l : List α) (l' : List α) (h : l ≠ []) :
    (l ++ l').head? = l.head? := by
  cases l with
  | nil => exact absurd rfl h
  | cons a t => rfl

theorem rawAgg_append_eq (es : List ValidationError) (e : ValidationError)
    (h : es.filter (fun x => x.type = e.type) ≠ []) :
    rawAgg (es ++ [e]) e.type = ValidationEngine.updateGroup (rawAgg es e.type) e := by
  have hfilter : (es ++ [e]).filter (fun x => x.type = e.type) =
      es.filter (fun x => x.type = e.type) ++ [e] := by
    simp [List.filter_append]
  simp only [rawAgg, ValidationEngine.updateGroup, hfilter]
  simp only [GroupedValidationError.mk.injEq]
  refine ⟨by trivial, ?_, ?_, by simp, by simp, by simp, ?_⟩
  · rw [head?_append_left _ _ h]
  · rw [head?_append_left _ _ h]
  · rw [List.filterMap_append]
    cases hd : e.details with
    | none => simp [hd]
    | some d =>
      simp only [hd]
      have hmaps : List.filterMap (fun x => x.details) [e] = [d] := by
        simp [hd]
      rw [hmaps, take3_snoc]

theorem rawAgg_new (es : List ValidationError) (e : ValidationError)
    (h : es.filter (fun x => x.type = e.type) = []) :
    rawAgg (es ++ [e]) e.type = ValidationEngine.newGroup e := by
  have hfilter : (es ++ [e]).filter (fun x => x.type = e.type) = [e] := by
    simp [List.filter_append, h]
  simp only [rawAgg, ValidationEngine.newGroup, hfilter]
  cases hd : e.details <;> simp [hd]

theorem insertGrouped_map (es : List ValidationError) (e : ValidationError) :
    ∀ ks : List String, ks.Nodup →
      (∀ k ∈ ks, es.filter (fun x => x.type = k) ≠ []) →
      (es.filter (fun x => x.type = e.type) ≠ [] → e.type ∈ ks) →
      ValidationEngine.insertGrouped (ks.map (rawAgg es)) e =
        (if e.type ∈ ks then ks else ks ++ [e.type]).map (rawAgg (es ++ [e])) := by
  intro ks
  induction ks with
  | nil =>
    intro _ _ hcov
    have hnil : es.filter (fun x => x.type = e.type) = [] := by
      by_contra hne
      exact List.not_mem_nil _ (hcov hne)
    simp only [List.map_nil, ValidationEngine.insertGrouped, List.not_mem_nil, if_false,
      List.nil_append, List.map_singleton]
    rw [rawAgg_new es e hnil]
  | cons k0 ks ih =>
    intro hnd hks hcov
    simp only [List.map_cons, ValidationEngine.insertGrouped]
    by_cases hk : k0 = e.type
    · subst hk
      rw [if_pos (show (rawAgg es e.type).type = e.type from rfl)]
      rw [if_pos (List.mem_cons_self e.type ks), List.map_cons]
      congr 1
      · exact (rawAgg_append_eq es e (hks e.type (List.mem_cons_self e.type ks))).symm
      · apply List.map_congr_left
        intro k hkmem
        have hne : k ≠ e.type := fun hkeq => (List.nodup_cons.mp hnd).1 (hkeq ▸ hkmem)
        exact (rawAgg_append_ne es e k hne).symm
    · rw [if_neg (show ¬((rawAgg es k0).type = e.type) from fun heq => hk heq)]
      have hcov' : es.filter (fun x => x.type = e.type) ≠ [] → e.type ∈ ks := by
        intro hne
        rcases List.mem_cons.mp (hcov hne) with heq | hmem
        · exact absurd heq.symm hk
        · exact hmem
      rw [ih (List.nodup_cons.mp hnd).2
        (fun k hkm => hks k (List.mem_cons_of_mem k0 hkm)) hcov']
      by_cases hmem : e.type ∈ ks
      · rw [if_pos hmem, if_pos (List.mem_cons_of_mem k0 hmem), List.map_cons]
        congr 1
        exact (rawAgg_append_ne es e k0 (fun heq => hk heq)).symm
      · rw [if_neg hmem, if_neg (show ¬(e.type ∈ k0 :: ks) from by
          intro hm
          rcases List.mem_cons.mp hm with heq | hm'
          · exact hk heq.symm
          · exact hmem hm')]
        rw [List.cons_append, List.map_cons]
        congr 1
        exact (rawAgg_append_ne es e k0 (fun heq => hk heq)).symm

theorem buildGroupMap_eq (es : List ValidationError) :
    ValidationEngine.buildGroupMap es = (kindsOf es).map (rawAgg es) := by
  induction es using List.reverseRecOn with
  | nil => rfl
  | append_singleton es e ih =>
    have hstep : ValidationEngine.buildGroupMap (es ++ [e]) =
        ValidationEngine.insertGrouped (ValidationEngine.buildGroupMap es) e := by
      simp [ValidationEngine.buildGroupMap, List.foldl_append]
    rw [hstep, ih]
    rw [insertGrouped_map es e (kindsOf es) (jsDedup_nodup _)
      (kindsOf_filter_ne_nil es) (kindsOf_covers es e)]
    rw [kindsOf_append]
    by_cases hmem : e.type ∈ es.map (·.type)
    · rw [if_pos hmem, if_pos ((mem_kindsOf es e.type).mpr hmem)]
    · rw [if_neg hmem, if_neg (fun h => hmem ((mem_kindsOf es e.type).mp h))]

theorem insertByCountDesc_perm (g : GroupedValidationError)
    (l : List GroupedValidationError) :
    (ValidationEngine.insertByCountDesc g l).Perm (g :: l) := by
  induction l with
  | nil => exact List.Perm.refl _
  | cons h t ih =>
    simp only [ValidationEngine.insertByCountDesc]
    split_ifs with hc
    · exact List.Perm.refl _
    · exact (List.Perm.cons h ih).trans (List.Perm.swap g h t)

theorem sortByCountDesc_perm (l : List GroupedValidationError) :
    (ValidationEngine.sortByCountDesc l).Perm l := by
  induction l with
  | nil => exact List.Perm.refl _
  | cons x l ih =>
    simp only [ValidationEngine.sortByCountDesc, List.foldr_cons]
    exact (insertByCountDesc_perm x _).trans (List.Perm.cons x ih)

theorem insertByCountDesc_sorted (g : GroupedValidationError)
    (l : List GroupedValidationError)
    (hl : List.Sorted (fun a b : GroupedValidationError => b.count ≤ a.count) l) :
    List.Sorted (fun a b : GroupedValidationError => b.count ≤ a.count)
      (ValidationEngine.insertByCountDesc g l) := by
  induction l with
  | nil => simp [ValidationEngine.insertByCountDesc]
  | cons h t ih =>
    simp only [ValidationEngine.insertByCountDesc]
    split_ifs with hc
    · refine List.Pairwise.cons ?_ hl
      intro b hb
      rcases List.mem_cons.mp hb with hb | hb
      · subst hb
        exact hc
      · have := (List.pairwise_cons.mp hl).1 b hb
        omega
    · have ht := (List.pairwise_cons.mp hl).2
      refine List.Pairwise.cons ?_ (ih ht)
      intro b hb
      have hb' : b ∈ g :: t := (insertByCountDesc_perm g t).mem_iff.mp hb
      rcases List.mem_cons.mp hb' with hb' | hb'
      · subst hb'
        omega
      · exact (List.pairwise_cons.mp hl).1 b hb'

theorem sortByCountDesc_sorted (l : List GroupedValidationError) :
    List.Sorted (fun a b : GroupedValidationError => b.count ≤ a.count)
      (ValidationEngine.sortByCountDesc l) := by
  induction l with
  | nil => simp [ValidationEngine.sortByCountDesc]
  | cons x l ih =>
    simp only [ValidationEngine.sortByCountDesc, List.foldr_cons]
    exact insertByCountDesc_sorted x _ ih

/-- C4 (counterexample): two findings of the same kind, touching columns
`b` then `a`, group into a single entry whose affected-column list is
`["b", "a"]` — de-duplicated in first-seen order, not sorted ascending as
the claim states. -/
theorem claim4_counterexample :
    ((ValidationEngine.groupValidationErrors [errColB, errColA]).map
      (·.affectedColumns)) = [["b", "a"]] ∧
    (["b", "a"] : List String) ≠ ["a", "b"] := by
  decide

/-- C4 (amended): the aggregator returns exactly one group per finding
kind (in first-seen order, then stably sorted by descending count): each
group's count is the number of findings of its kind, its row set is the
de-duplicated union sorted ascending, its column set is the de-duplicated
union in *first-seen order* (not sorted), with message/severity from the
first finding of the kind and at most 3 example details; the output is
sorted descending by count with the first-seen order as tie-break. -/
theorem claim4_aggregator (es : List ValidationError) :
    ValidationEngine.groupValidationErrors es = groupedSpec es ∧
    List.Sorted (fun a b : GroupedValidationError => b.count ≤ a.count)
      (ValidationEngine.groupValidationErrors es) ∧
    (ValidationEngine.groupValidationErrors es).Perm
      ((kindsOf es).map (specGroup es)) := by
  have hmain : ValidationEngine.groupValidationErrors es = groupedSpec es := by
    rw [ValidationEngine.groupValidationErrors, groupedSpec, buildGroupMap_eq,
      List.map_map]
    congr 1
  refine ⟨hmain, ?_, ?_⟩
  · rw [ValidationEngine.groupValidationErrors]
    exact sortByCountDesc_sorted _
  · rw [hmain, groupedSpec]
    exact sortByCountDesc_perm _

end DataAlchemist
